import Mathlib

/-!
Verification of the node-graph editor core (visual DAG-flow editor).

The development shallowly embeds the C++ sources:
* `Node.cpp` / `Node.h` — port geometry, port counts, node sizing;
* `GroupNode.cpp` / `GroupNode.h` — the group port-mapping algorithm;
* `NodeScene.cpp` — scene primitives, grouping, serialization;
* `UndoCommands.cpp` / `UndoCommands.h` — the undo/redo command protocol.

Modelling conventions:
* `qreal` (an IEEE double in Qt) is modelled by exact rationals `ℚ`; the decimal
  literals of the source (`0.8`, `0.4`, `20`, `50`, ...) are taken exactly.
* C++ `int` is modelled by `ℤ`.
* Object identity (a `Node*` or `Connection*` pointer) is modelled by a natural
  number id.  `QSet<QString>` keys of the form `"%1_%2_in"` built from a pointer,
  a port index and a direction are modelled by the corresponding triple, which the
  string encoding represents injectively.
* Qt container operations are modelled by their documented list semantics:
  `QList::append` is list append, `QList::removeAll` filters, `QSet::insert`
  appends when the element is absent.
-/

namespace DAGFlow

/-- A 2D point (`QPointF`), with exact rational coordinates. -/
structure Point where
  x : ℚ
  y : ℚ
deriving DecidableEq, Repr

instance : Add Point := ⟨fun a b => ⟨a.x + b.x, a.y + b.y⟩⟩

instance : Sub Point := ⟨fun a b => ⟨a.x - b.x, a.y - b.y⟩⟩

instance : Zero Point := ⟨⟨0, 0⟩⟩

/-! ## Port geometry and port counts (`Node.cpp`) -/
/-- Size constants of `Node.h`. -/
def MIN_WIDTH : ℚ := 80

def MIN_HEIGHT : ℚ := 50

def MAX_WIDTH : ℚ := 300

def MAX_HEIGHT : ℚ := 200

def DEFAULT_WIDTH : ℚ := 120

def DEFAULT_HEIGHT : ℚ := 70

/-- The geometric state of a `Node`: scene position, size, and port counts. -/
structure NodeGeom where
  pos : Point
  width : ℚ
  height : ℚ
  inputPortCount : ℤ
  outputPortCount : ℤ
deriving DecidableEq, Repr

/-- Embedding of the static helper `calculatePortYOffset` of `Node.cpp`:
vertical offset of port `portIndex` among `totalPorts` ports on a node of
height `nodeHeight`. -/
def calculatePortYOffset (portIndex totalPorts : ℤ) (nodeHeight : ℚ) : ℚ :=
  if totalPorts ≤ 0 then 0
  else if totalPorts = 1 then 0
  else
    let usableHeight : ℚ := nodeHeight * (4 / 5)
    let startY : ℚ := -usableHeight / 2
    let spacing : ℚ := usableHeight / ((totalPorts : ℚ) - 1)
    startY + (portIndex : ℚ) * spacing

/-- Embedding of `Node::getInputPortPos(int)`: scene position of an input
port, with the out-of-range clamp of the source. -/
def getInputPortPos (n : NodeGeom) (portIndex : ℤ) : Point :=
  if n.inputPortCount ≤ 0 then
    ⟨n.pos.x + -n.width / 2, n.pos.y⟩
  else
    let pIdx := if portIndex < 0 ∨ n.inputPortCount ≤ portIndex then 0 else portIndex
    let yOffset := calculatePortYOffset pIdx n.inputPortCount n.height
    ⟨n.pos.x + -n.width / 2, n.pos.y + yOffset⟩

/-- Embedding of `Node::getOutputPortPos(int)`. -/
def getOutputPortPos (n : NodeGeom) (portIndex : ℤ) : Point :=
  if n.outputPortCount ≤ 0 then
    ⟨n.pos.x + n.width / 2, n.pos.y⟩
  else
    let pIdx := if portIndex < 0 ∨ n.outputPortCount ≤ portIndex then 0 else portIndex
    let yOffset := calculatePortYOffset pIdx n.outputPortCount n.height
    ⟨n.pos.x + n.width / 2, n.pos.y + yOffset⟩

/-- Embedding of `Node::setInputPortCount`: stores `qMax(0, count)`, with the
no-change early exit of the source. -/
def setInputPortCount (n : NodeGeom) (count : ℤ) : NodeGeom :=
  if n.inputPortCount = max 0 count then n else { n with inputPortCount := max 0 count }

/-- Embedding of `Node::setOutputPortCount`. -/
def setOutputPortCount (n : NodeGeom) (count : ℤ) : NodeGeom :=
  if n.outputPortCount = max 0 count then n else { n with outputPortCount := max 0 count }

/-- Qt's `qBound(lo, v, hi) = qMax(lo, qMin(hi, v))`. -/
def qBound (lo v hi : ℚ) : ℚ := max lo (min hi v)

/-- Embedding of `Node::setSize`: both dimensions are clamped to the
`[MIN, MAX]` ranges of `Node.h`. -/
def setSize (n : NodeGeom) (w h : ℚ) : NodeGeom :=
  { n with width := qBound MIN_WIDTH w MAX_WIDTH, height := qBound MIN_HEIGHT h MAX_HEIGHT }

/-- One call to a port-count setter: `(true, c)` is `setInputPortCount c`,
`(false, c)` is `setOutputPortCount c`. -/
def applyPortCountOps (n : NodeGeom) (ops : List (Bool × ℤ)) : NodeGeom :=
  ops.foldl (fun m op => if op.1 then setInputPortCount m op.2 else setOutputPortCount m op.2) n

/-! ## The group port-mapping algorithm (`GroupNode.cpp`) -/
/-- A `Connection` object: identity (the pointer), endpoint node ids, port
indices and line type (`0` Bezier, `1` Straight, `2` Orthogonal). -/
structure ConnRec where
  cid : ℕ
  fromNode : ℕ
  fromPort : ℤ
  toNode : ℕ
  toPort : ℤ
  lineType : ℤ
deriving DecidableEq, Repr

/-- The view of an internal `Node` object that `calculatePortMappings`
dereferences: identity, name and port counts. -/
structure GNode where
  nid : ℕ
  name : String
  inputPortCount : ℤ
  outputPortCount : ℤ
deriving DecidableEq, Repr

/-- The `ExternalConnection` record of `GroupNode.h`. -/
structure ExternalConnection where
  externalNode : ℕ
  externalPortIndex : ℤ
  internalNode : GNode
  internalPortIndex : ℤ
  isInput : Bool
  originalConnection : ConnRec
deriving DecidableEq, Repr

/-- The `PortMapping` record of `GroupNode.h`. -/
structure PortMapping where
  internalNode : ℕ
  internalPortIndex : ℤ
  isInput : Bool
  portLabel : String
deriving DecidableEq, Repr

/-- A connected-port key: the source builds the string `"%1_%2_in"` or
`"%1_%2_out"` from the node pointer, the port index and the direction; the
encoding is injective, so the key is modelled by the triple
`(node id, port index, direction)` with `true` for `in`. -/
abbrev PortKey := ℕ × ℤ × Bool

/-- `QSet::insert` on the connected-port set: a no-op when present. -/
def qsetInsert (s : List PortKey) (k : PortKey) : List PortKey :=
  if k ∈ s then s else s ++ [k]

/-- The `"%1[%2]"` port label. -/
def portLabel (name : String) (idx : ℤ) : String := name ++ "[" ++ toString idx ++ "]"

/-- First loop of `calculatePortMappings`: mark both endpoints of every
internal connection as connected. -/
def markInternalConnections (conns : List ConnRec) : List PortKey :=
  conns.foldl
    (fun s c => qsetInsert (qsetInsert s (c.fromNode, c.fromPort, false)) (c.toNode, c.toPort, true))
    []

/-- The connected-port key of an external-connection descriptor. -/
def extKey (e : ExternalConnection) : PortKey :=
  (e.internalNode.nid, e.internalPortIndex, e.isInput)

/-- The `PortMapping` emitted for an external-connection descriptor. -/
def extMapping (e : ExternalConnection) : PortMapping :=
  ⟨e.internalNode.nid, e.internalPortIndex, e.isInput,
    portLabel e.internalNode.name e.internalPortIndex⟩

/-- Second loop of `calculatePortMappings`: every external descriptor also
marks its internal endpoint as connected. -/
def connectedAfterExternals (s : List PortKey) (exts : List ExternalConnection) : List PortKey :=
  exts.foldl (fun s e => qsetInsert s (extKey e)) s

/-- The indices `0, 1, ..., n-1` of a C++ loop `for (int i = 0; i < n; ++i)`. -/
def intRange (n : ℤ) : List ℤ := (List.range n.toNat).map fun k => (k : ℤ)

/-- Third loop of `calculatePortMappings`, input side: every input port of an
internal node that is not in the connected set is emitted as dangling. -/
def danglingInputMappings (connected : List PortKey) (nodes : List GNode) : List PortMapping :=
  nodes.flatMap fun nd =>
    (intRange nd.inputPortCount).filterMap fun i =>
      if (nd.nid, i, true) ∈ connected then none
      else some ⟨nd.nid, i, true, portLabel nd.name i⟩

/-- Third loop of `calculatePortMappings`, output side. -/
def danglingOutputMappings (connected : List PortKey) (nodes : List GNode) : List PortMapping :=
  nodes.flatMap fun nd =>
    (intRange nd.outputPortCount).filterMap fun i =>
      if (nd.nid, i, false) ∈ connected then none
      else some ⟨nd.nid, i, false, portLabel nd.name i⟩

/-- The two mapping lists computed by `GroupNode::calculatePortMappings`:
externally connected ports first (in descriptor order), then the fully
dangling ports in node-then-port order. -/
def calculatePortMappingsLists (internalNodes : List GNode) (internalConns : List ConnRec)
    (externalConns : List ExternalConnection) : List PortMapping × List PortMapping :=
  let connected0 := markInternalConnections internalConns
  let extIn := (externalConns.filter fun e => e.isInput).map extMapping
  let extOut := (externalConns.filter fun e => !e.isInput).map extMapping
  let connected := connectedAfterExternals connected0 externalConns
  (extIn ++ danglingInputMappings connected internalNodes,
   extOut ++ danglingOutputMappings connected internalNodes)

/-- Height-growth step of `calculatePortMappings`: if the group's current
height is below `50 + maxPorts·20`, grow it to that value via `setSize`. -/
def groupAdjustHeight (g : NodeGeom) (maxPorts : ℤ) : NodeGeom :=
  if g.height < 50 + (maxPorts : ℚ) * 20 then setSize g g.width (50 + (maxPorts : ℚ) * 20)
  else g

/-- Width-growth step of `calculatePortMappings`: a group narrower than 150
is widened to 150 via `setSize`. -/
def groupAdjustWidth (g : NodeGeom) : NodeGeom :=
  if g.width < 150 then setSize g 150 g.height else g

/-- Tail of `GroupNode::calculatePortMappings`: update the group's port counts
(minimum 1 each) and auto-grow its size. -/
def calculatePortMappingsGeom (g : NodeGeom) (inMaps outMaps : List PortMapping) : NodeGeom :=
  let inputCount : ℤ := max 1 (inMaps.length : ℤ)
  let outputCount : ℤ := max 1 (outMaps.length : ℤ)
  groupAdjustWidth
    (groupAdjustHeight (setOutputPortCount (setInputPortCount g inputCount) outputCount)
      (max inputCount outputCount))

/-- State of a `GroupNode` after `calculatePortMappings`. -/
structure GroupMappingResult where
  geom : NodeGeom
  inputPortMappings : List PortMapping
  outputPortMappings : List PortMapping
deriving DecidableEq, Repr

/-- Embedding of `GroupNode::calculatePortMappings`, as a function of the
group's geometry, internal nodes, internal connections and external
descriptors. -/
def calculatePortMappings (g : NodeGeom) (internalNodes : List GNode)
    (internalConns : List ConnRec) (externalConns : List ExternalConnection) :
    GroupMappingResult :=
  let lists := calculatePortMappingsLists internalNodes internalConns externalConns
  ⟨calculatePortMappingsGeom g lists.1 lists.2, lists.1, lists.2⟩

/-- The connected-port keys contributed by a list of internal connections. -/
def internalEndpointKeys (conns : List ConnRec) : List PortKey :=
  conns.flatMap fun c => [(c.fromNode, c.fromPort, false), (c.toNode, c.toPort, true)]

/-- The connected-port key of an emitted `PortMapping`. -/
def mappingKey (m : PortMapping) : PortKey := (m.internalNode, m.internalPortIndex, m.isInput)

/-- Default geometry of a freshly constructed `GroupNode` (the `Node`
constructor defaults: 120×70, one port each side). -/
def groupGeomDefault : NodeGeom := ⟨⟨0, 0⟩, 120, 70, 1, 1⟩

/-- Internal nodes of the C2 counterexample: `A` and `B`, one port each side. -/
def gnA : GNode := ⟨0, "A", 1, 1⟩

def gnB : GNode := ⟨1, "B", 1, 1⟩

/-- The internal connection `A.out0 → B.in0`. -/
def connAB : ConnRec := ⟨10, 0, 0, 1, 0, 0⟩

/-- An external descriptor: outside node `100` feeds `B.in0`. -/
def extXB : ExternalConnection := ⟨100, 0, gnB, 0, true, ⟨11, 100, 0, 1, 0, 0⟩⟩

/-- A second external descriptor with the same internal endpoint `B.in0`. -/
def extYB : ExternalConnection := ⟨101, 0, gnB, 0, true, ⟨12, 101, 0, 1, 0, 0⟩⟩

/-- The internal node of the C7 counterexample: eight input ports. -/
def gC7node : GNode := ⟨0, "N", 8, 0⟩

/-- A sample node used to instantiate the geometry theorems: default size,
3 input ports, 1 output port. -/
def nodeA : NodeGeom := ⟨⟨0, 0⟩, 120, 70, 3, 1⟩

/-! ## Scene state and the command protocol (`NodeScene.cpp`, `UndoCommands.cpp`)

The scene is modelled by:
* a heap of live `Node` objects (identity → name, position, port counts) —
  objects survive removal from the scene, they are owned by commands;
* per-node registered-connection lists (`Node::m_connections` bookkeeping);
* the scene's node list (`NodeScene::m_nodes`) as a list of identities;
* the scene's connection list (`NodeScene::m_connections`) as connection
  records.
-/
/-- The mutable fields of a `Node` object that the command protocol touches. -/
structure NodeObj where
  name : String
  pos : Point
  inputPortCount : ℤ
  outputPortCount : ℤ
deriving DecidableEq, Repr

/-- An association-list lookup (first match), modelling map/pointer access. -/
def assocLookup {α : Type} (l : List (ℕ × α)) (k : ℕ) : Option α :=
  match l with
  | [] => none
  | p :: rest => if p.1 = k then some p.2 else assocLookup rest k

/-- The whole editor state. -/
structure SceneState where
  heap : List (ℕ × NodeObj)
  connLists : List (ℕ × List ℕ)
  sceneNodes : List ℕ
  sceneConns : List ConnRec
deriving DecidableEq, Repr

/-- The position of a node object (`Node::pos`); dereference of the id. -/
def posOf (s : SceneState) (nid : ℕ) : Point :=
  (assocLookup s.heap nid).elim 0 (·.pos)

/-- The dereferenced view of a node object used by the grouping engine. -/
def gnodeView (s : SceneState) (nid : ℕ) : GNode :=
  (assocLookup s.heap nid).elim ⟨nid, "", 0, 0⟩
    fun o => ⟨nid, o.name, o.inputPortCount, o.outputPortCount⟩

/-- Update the position stored in a node object (`Node::setPos`). -/
def heapSetPos (heap : List (ℕ × NodeObj)) (nid : ℕ) (p : Point) : List (ℕ × NodeObj) :=
  heap.map fun q => if q.1 = nid then (q.1, { q.2 with pos := p }) else q

/-- `Node::setPos` lifted to the scene state. -/
def scenePos (s : SceneState) (nid : ℕ) (p : Point) : SceneState :=
  { s with heap := heapSetPos s.heap nid p }

/-- `Node::addConnection` on the back-reference list of one node. -/
def regConn (L : List (ℕ × List ℕ)) (nid cid : ℕ) : List (ℕ × List ℕ) :=
  L.map fun q => if q.1 = nid then (q.1, q.2 ++ [cid]) else q

/-- `Node::removeConnection` (a `removeAll`) on the list of one node. -/
def deregConn (L : List (ℕ × List ℕ)) (nid cid : ℕ) : List (ℕ × List ℕ) :=
  L.map fun q => if q.1 = nid then (q.1, q.2.filter (· ≠ cid)) else q

/-- `NodeScene::removeNodeFromScene`: `m_nodes.removeAll(node)` plus
`removeItem`; the object itself survives. -/
def removeNodeFromScene (s : SceneState) (nid : ℕ) : SceneState :=
  { s with sceneNodes := s.sceneNodes.filter (· ≠ nid) }

/-- `NodeScene::restoreNodeToScene`: `addItem` plus `m_nodes.append`. -/
def restoreNodeToScene (s : SceneState) (nid : ℕ) : SceneState :=
  { s with sceneNodes := s.sceneNodes ++ [nid] }

/-- `NodeScene::createNode`: allocate a fresh `Node` object (empty connection
list), add it to the scene and append it to `m_nodes`. -/
def createNodeObj (s : SceneState) (nid : ℕ) (obj : NodeObj) : SceneState :=
  { s with heap := s.heap ++ [(nid, obj)], connLists := s.connLists ++ [(nid, [])],
           sceneNodes := s.sceneNodes ++ [nid] }

/-- The `Connection` constructor's registration with both endpoint nodes. -/
def connRegister (s : SceneState) (c : ConnRec) : SceneState :=
  { s with connLists := regConn (regConn s.connLists c.fromNode c.cid) c.toNode c.cid }

/-- `NodeScene::createConnection` and `NodeScene::restoreConnectionToScene`:
register with both endpoints, add to the scene, append to `m_connections`. -/
def restoreConnectionToScene (s : SceneState) (c : ConnRec) : SceneState :=
  let s1 := connRegister s c
  { s1 with sceneConns := s1.sceneConns ++ [c] }

/-- `NodeScene::removeConnectionFromScene`: deregister from both endpoints,
then `m_connections.removeAll` plus `removeItem`. -/
def removeConnectionFromScene (s : SceneState) (c : ConnRec) : SceneState :=
  { s with connLists := deregConn (deregConn s.connLists c.fromNode c.cid) c.toNode c.cid,
           sceneConns := s.sceneConns.filter fun d => d.cid ≠ c.cid }

/-- The internal-connection class of `NodeScene::groupSelected`: both
endpoints selected. -/
def internalConnectionsOf (conns : List ConnRec) (S : List ℕ) : List ConnRec :=
  conns.filter fun c => c.fromNode ∈ S ∧ c.toNode ∈ S

/-- The external-connection descriptors of `NodeScene::groupSelected`:
exactly one endpoint selected, tagged with the direction. -/
def externalConnectionsOf (s : SceneState) (conns : List ConnRec) (S : List ℕ) :
    List ExternalConnection :=
  conns.filterMap fun c =>
    if c.fromNode ∈ S ∧ c.toNode ∈ S then none
    else if c.fromNode ∈ S then
      some ⟨c.toNode, c.toPort, gnodeView s c.fromNode, c.fromPort, false, c⟩
    else if c.toNode ∈ S then
      some ⟨c.fromNode, c.fromPort, gnodeView s c.toNode, c.toPort, true, c⟩
    else none

/-- The centroid `center = (Σ pos) / n` computed by `GroupNodesCommand::redo`
over the member nodes. -/
def groupCenter (s : SceneState) (S : List ℕ) : Point :=
  let sum := S.foldl (fun acc n => acc + posOf s n) (0 : Point)
  ⟨sum.x / (S.length : ℚ), sum.y / (S.length : ℚ)⟩

/-- The centroid of the captured original positions, computed by
`UngroupNodesCommand::redo`. -/
def originalCenterOf (origPos : List (ℕ × Point)) : Point :=
  let sum := origPos.foldl (fun acc q => acc + q.2) (0 : Point)
  ⟨sum.x / (origPos.length : ℚ), sum.y / (origPos.length : ℚ)⟩

/-- `m_originalPositions`, captured in the `GroupNodesCommand` constructor. -/
def capturedOriginalPositions (s : SceneState) (S : List ℕ) : List (ℕ × Point) :=
  S.map fun n => (n, posOf s n)

/-- The dereferenced internal-node views passed to `calculatePortMappings`. -/
def internalGNodeViews (s : SceneState) (S : List ℕ) : List GNode :=
  S.map (gnodeView s)

/-- The first-match group-port lookup of `GroupNodesCommand::redo`
(`groupPortIndex` stays 0 when nothing matches). -/
def findMappingIndex (maps : List PortMapping) (nd : ℕ) (pIdx : ℤ) : ℤ :=
  ((maps.findIdx? fun m => m.internalNode = nd ∧ m.internalPortIndex = pIdx).getD 0 : ℕ)

/-- The new group-port `Connection` built for one external descriptor
(`new Connection(...)`, default Bezier line type). -/
def mkGroupConn (gid : ℕ) (inMaps outMaps : List PortMapping) (cid : ℕ)
    (e : ExternalConnection) : ConnRec :=
  if e.isInput then
    ⟨cid, e.externalNode, e.externalPortIndex, gid,
      findMappingIndex inMaps e.internalNode.nid e.internalPortIndex, 0⟩
  else
    ⟨cid, gid, findMappingIndex outMaps e.internalNode.nid e.internalPortIndex,
      e.externalNode, e.externalPortIndex, 0⟩

/-- All new group-port connections, in descriptor order, with fresh
identities `cidBase, cidBase+1, ...`. -/
def newGroupConns (gid : ℕ) (inMaps outMaps : List PortMapping) (cidBase : ℕ)
    (exts : List ExternalConnection) : List ConnRec :=
  exts.enum.map fun p => mkGroupConn gid inMaps outMaps (cidBase + p.1) p.2

/-- The mapping lists `calculatePortMappings` computes for the new group. -/
def groupMaps (s : SceneState) (S : List ℕ) (I : List ConnRec)
    (E : List ExternalConnection) : List PortMapping × List PortMapping :=
  calculatePortMappingsLists (internalGNodeViews s S) I E

/-- The freshly constructed `GroupNode` object: name `"组合"`, positioned at
the member centroid, with the port counts set by `calculatePortMappings`. -/
def groupObjOf (s : SceneState) (S : List ℕ) (I : List ConnRec)
    (E : List ExternalConnection) : NodeObj :=
  ⟨"组合", groupCenter s S, max 1 ((groupMaps s S I E).1.length : ℤ),
    max 1 ((groupMaps s S I E).2.length : ℤ)⟩

/-- The list `m_newExternalConnections` built on the first redo. -/
def groupNewConns (s : SceneState) (S : List ℕ) (I : List ConnRec)
    (E : List ExternalConnection) (gid cidBase : ℕ) : List ConnRec :=
  newGroupConns gid (groupMaps s S I E).1 (groupMaps s S I E).2 cidBase E

/-- First execution of `GroupNodesCommand::redo`: create the group object at
the member centroid with the computed port counts, remove the external
connections, the internal connections and the member nodes from the scene,
add the group, and create the group-port connections. -/
def groupRedo1 (s : SceneState) (S : List ℕ) (I : List ConnRec)
    (E : List ExternalConnection) (gid : ℕ) (cidBase : ℕ) : SceneState :=
  let s1 := { s with heap := s.heap ++ [(gid, groupObjOf s S I E)],
                     connLists := s.connLists ++ [(gid, [])] }
  let s2 := (E.map (·.originalConnection)).foldl removeConnectionFromScene s1
  let s3 := I.foldl removeConnectionFromScene s2
  let s4 := S.foldl removeNodeFromScene s3
  let s5 := restoreNodeToScene s4 gid
  (groupNewConns s S I E gid cidBase).foldl restoreConnectionToScene s5

/-- The member-restoration loop shared by `GroupNodesCommand::undo` and
`UngroupNodesCommand::redo`: `setPos` each node to a prescribed position,
then restore it to the scene. -/
def restoreNodesAt (ps : ℕ → Point) (S : List ℕ) (s : SceneState) : SceneState :=
  S.foldl (fun st n => restoreNodeToScene (scenePos st n (ps n)) n) s

/-- `GroupNodesCommand::undo`: remove the group-port connections and the
group, restore every member at its captured original position, then restore
the internal and the original external connections. -/
def groupUndo (S : List ℕ) (I : List ConnRec) (E : List ExternalConnection)
    (origPos : List (ℕ × Point)) (gid : ℕ) (newConns : List ConnRec)
    (s : SceneState) : SceneState :=
  let s1 := newConns.foldl removeConnectionFromScene s
  let s2 := removeNodeFromScene s1 gid
  let s3 := restoreNodesAt (fun n => (assocLookup origPos n).getD 0) S s2
  let s4 := I.foldl restoreConnectionToScene s3
  (E.map (·.originalConnection)).foldl restoreConnectionToScene s4

/-- Later executions of `GroupNodesCommand::redo`: remove the restored
connections and members again, restore the group and its connections. -/
def groupRedo2 (S : List ℕ) (I : List ConnRec) (E : List ExternalConnection) (gid : ℕ)
    (newConns : List ConnRec) (s : SceneState) : SceneState :=
  let s1 := (E.map (·.originalConnection)).foldl removeConnectionFromScene s
  let s2 := I.foldl removeConnectionFromScene s1
  let s3 := S.foldl removeNodeFromScene s2
  let s4 := restoreNodeToScene s3 gid
  newConns.foldl restoreConnectionToScene s4

/-- `UngroupNodesCommand::redo`: remove the group's current connections
(`gconns`, captured from `groupNode->getConnections()` in the constructor)
and the group, compute `offset = group.pos − centroid(originalPositions)`,
restore every internal node at `originalPosition + offset`, then restore the
internal connections and the original external connections. -/
def ungroupRedo (S : List ℕ) (I : List ConnRec) (E : List ExternalConnection)
    (origPos : List (ℕ × Point)) (gid : ℕ) (gconns : List ConnRec)
    (s : SceneState) : SceneState :=
  let s1 := gconns.foldl removeConnectionFromScene s
  let s2 := removeNodeFromScene s1 gid
  let offset := posOf s2 gid - originalCenterOf origPos
  let s3 := restoreNodesAt (fun n => (assocLookup origPos n).getD 0 + offset) S s2
  let s4 := I.foldl restoreConnectionToScene s3
  (E.map (·.originalConnection)).foldl restoreConnectionToScene s4

/-- `UngroupNodesCommand::undo`: remove the restored connections and internal
nodes, restore the group and its captured connections. -/
def ungroupUndo (S : List ℕ) (I : List ConnRec) (E : List ExternalConnection) (gid : ℕ)
    (gconns : List ConnRec) (s : SceneState) : SceneState :=
  let s1 := (E.map (·.originalConnection)).foldl removeConnectionFromScene s
  let s2 := I.foldl removeConnectionFromScene s1
  let s3 := S.foldl removeNodeFromScene s2
  let s4 := restoreNodeToScene s3 gid
  gconns.foldl restoreConnectionToScene s4

/-- `DeleteCommand::redo`: remove the connections, then the nodes. -/
def deleteRedo (ns : List ℕ) (cs : List ConnRec) (s : SceneState) : SceneState :=
  ns.foldl removeNodeFromScene (cs.foldl removeConnectionFromScene s)

/-- `DeleteCommand::undo`: restore the nodes, then the connections. -/
def deleteUndo (ns : List ℕ) (cs : List ConnRec) (s : SceneState) : SceneState :=
  cs.foldl restoreConnectionToScene (ns.foldl restoreNodeToScene s)

/-- First execution of `PasteCommand::redo`: create the pasted nodes, then
the pasted connections. -/
def pasteRedo1 (ns : List (ℕ × NodeObj)) (cs : List ConnRec) (s : SceneState) : SceneState :=
  cs.foldl restoreConnectionToScene (ns.foldl (fun st p => createNodeObj st p.1 p.2) s)

/-- `PasteCommand::undo`: remove the pasted connections, then the nodes. -/
def pasteUndo (ns : List (ℕ × NodeObj)) (cs : List ConnRec) (s : SceneState) : SceneState :=
  (ns.map Prod.fst).foldl removeNodeFromScene (cs.foldl removeConnectionFromScene s)

/-- Later executions of `PasteCommand::redo`: restore the nodes, then the
connections. -/
def pasteRedo2 (ns : List (ℕ × NodeObj)) (cs : List ConnRec) (s : SceneState) : SceneState :=
  cs.foldl restoreConnectionToScene ((ns.map Prod.fst).foldl restoreNodeToScene s)

/-- `MoveNodesCommand` position application (undo with the old, redo with the
new positions), the per-node `setPos` loop. -/
def moveNodesApply (nodes : List ℕ) (ps : List Point) (s : SceneState) : SceneState :=
  (nodes.zip ps).foldl (fun st q => scenePos st q.1 q.2) s

/-- Repeated `heapSetPos` over a node list with a per-node position. -/
def multiSetPos (S : List ℕ) (ps : ℕ → Point) (h : List (ℕ × NodeObj)) :
    List (ℕ × NodeObj) :=
  S.foldl (fun h n => heapSetPos h n (ps n)) h

/-- The graph state a command round trip must restore: node objects with
their positions, scene node membership, and the scene connection set.  The
per-node registered-connection lists are lifecycle bookkeeping, not graph
state. -/
def graphState (s : SceneState) : List (ℕ × NodeObj) × List ℕ × List ConnRec :=
  (s.heap, s.sceneNodes, s.sceneConns)

/-- The per-node `setPos` fold on the heap behind `moveNodesApply`. -/
def zipSetPos (nodes : List ℕ) (ps : List Point) (h : List (ℕ × NodeObj)) :
    List (ℕ × NodeObj) :=
  (nodes.zip ps).foldl (fun h q => heapSetPos h q.1 q.2) h

/-- A node object used in the undo/redo witnesses. -/
def objW : NodeObj := ⟨"n", ⟨0, 0⟩, 1, 1⟩

/-- The empty scene. -/
def sEmpty : SceneState := ⟨[], [], [], []⟩

/-- A two-node scene used to instantiate the group round trip. -/
def sTwoNodes : SceneState := ⟨[(0, objW), (1, objW)], [(0, []), (1, [])], [0, 1], []⟩

/-- A one-group scene used to instantiate the ungroup round trip. -/
def sOneGroup : SceneState := ⟨[(5, objW)], [(5, [])], [5], []⟩

def groupedScene (s : SceneState) (S : List ℕ) (gid b : ℕ) (gp : Point) : SceneState :=
  scenePos (groupRedo1 s S (internalConnectionsOf s.sceneConns S)
    (externalConnectionsOf s s.sceneConns S) gid b) gid gp

def groupUngroup (s : SceneState) (S : List ℕ) (gid b : ℕ) (gp : Point) : SceneState :=
  ungroupRedo S (internalConnectionsOf s.sceneConns S)
    (externalConnectionsOf s s.sceneConns S) (capturedOriginalPositions s S) gid
    (groupNewConns s S (internalConnectionsOf s.sceneConns S)
      (externalConnectionsOf s s.sceneConns S) gid b)
    (groupedScene s S gid b gp)

/-- An undo command as pushed on the `QUndoStack`: `MoveNodeCommand` carries
the node and its old/new positions; every other command type keeps the base
class's default id `-1` and is represented only by a tag. -/
inductive UCommand where
  | move (node : ℕ) (oldPos newPos : Point)
  | other (tag : ℕ)
deriving DecidableEq, Repr

/-- `id()`: `MoveNodeCommand::id` returns 1, the `QUndoCommand` default is -1. -/
def cmdId : UCommand → ℤ
  | UCommand.move _ _ _ => 1
  | UCommand.other _ => -1

/-- `MoveNodeCommand::mergeWith`: reject a command of another id, reject a
move of another node, otherwise keep the old position and absorb the new
one. -/
def moveMergeWith (n : ℕ) (oldP _newP : Point) (o : UCommand) : Option UCommand :=
  if cmdId o ≠ 1 then none
  else
    match o with
    | UCommand.move n2 _ newP2 => if n2 ≠ n then none else some (UCommand.move n oldP newP2)
    | UCommand.other _ => none

/-- `mergeWith` dispatch: only `MoveNodeCommand` overrides the base
implementation, which always returns false. -/
def mergeWith : UCommand → UCommand → Option UCommand
  | UCommand.move n oldP newP, o => moveMergeWith n oldP newP o
  | UCommand.other _, _ => none

/-- `QUndoStack::push` with the stack top first: try to merge when the top
command's id is not -1 and equals the new command's id, else append. -/
def stackPush (stack : List UCommand) (cmd : UCommand) : List UCommand :=
  match stack with
  | [] => [cmd]
  | top :: rest =>
    if cmdId top ≠ -1 ∧ cmdId top = cmdId cmd then
      match mergeWith top cmd with
      | some merged => merged :: rest
      | none => cmd :: top :: rest
    else cmd :: top :: rest

/-- Push a sequence of commands in order. -/
def stackPushAll (st : List UCommand) (cmds : List UCommand) : List UCommand :=
  cmds.foldl stackPush st

/-- The `MoveNodeCommand`s generated by one continuous drag through the
positions of `ps`: each command's old position is the previous position. -/
def pathCmds (nid : ℕ) : Point → List Point → List UCommand
  | _, [] => []
  | prev, p :: rest => UCommand.move nid prev p :: pathCmds nid p rest

/-- `undo()` of a command applied to the scene (`MoveNodeCommand::undo` is
`m_node->setPos(m_oldPos)`; other commands do not move this node). -/
def applyUndo (s : SceneState) : UCommand → SceneState
  | UCommand.move n oldP _ => scenePos s n oldP
  | UCommand.other _ => s

/-- Whether the stack top is a move command of the given node. -/
def topIsMoveOf (st : List UCommand) (nid : ℕ) : Bool :=
  match st with
  | UCommand.move m _ _ :: _ => m == nid
  | _ => false

/-- A JSON value (`QJsonValue`): strings, numbers (reals and ints kept
apart as Qt does), booleans, arrays, objects. -/
inductive JVal where
  | jstr (s : String)
  | jnum (q : ℚ)
  | jint (n : ℤ)
  | jbool (b : Bool)
  | jarr (elems : List JVal)
  | jobj (fields : List (String × JVal))

/-- Association lookup by string key (`QJsonObject::operator[]`,
`QMap<QString,...>::value`); for the `QMap` use the newest binding is kept
first, so the first match is the current one. -/
def sLookup {α : Type} : List (String × α) → String → Option α
  | [], _ => none
  | p :: rest, k => if p.1 = k then some p.2 else sLookup rest k

/-- `QJsonObject::contains`. -/
def jContains (o : List (String × JVal)) (k : String) : Bool := (sLookup o k).isSome

/-- `QJsonValue::toString` (default `""`). -/
def jToString : Option JVal → String
  | some (JVal.jstr s) => s
  | _ => ""

/-- `QJsonValue::toDouble` (default 0). -/
def jToDouble : Option JVal → ℚ
  | some (JVal.jnum q) => q
  | some (JVal.jint n) => (n : ℚ)
  | _ => 0

/-- `QJsonValue::toInt(d)`. -/
def jToInt (d : ℤ) : Option JVal → ℤ
  | some (JVal.jint n) => n
  | _ => d

/-- `QJsonValue::toBool(d)`. -/
def jToBool (d : Bool) : Option JVal → Bool
  | some (JVal.jbool b) => b
  | _ => d

/-- `QJsonValue::toArray` (default empty). -/
def jToArray : Option JVal → List JVal
  | some (JVal.jarr l) => l
  | _ => []

/-- `QJsonValue::toObject` / `QJsonDocument::object` (default empty). -/
def jToObject : JVal → List (String × JVal)
  | JVal.jobj l => l
  | _ => []

/-- A runtime connection: endpoint object identities (pointers), port
indices and line type (`Bezier = 0` is the constructor default). -/
structure RConn where
  fromId : ℕ
  toId : ℕ
  fromPort : ℤ
  toPort : ℤ
  lineType : ℤ
deriving DecidableEq, Repr

/-- A runtime node: a plain `Node`, or a `GroupNode` (type string "group",
constructor level 1) with internal nodes, internal connections and
name-keyed original positions. -/
inductive RNode where
  | plain (id : ℕ) (ty nm : String) (pos : Point) (inC outC : ℤ)
  | group (id : ℕ) (nm : String) (pos : Point) (inC outC : ℤ)
      (internals : List RNode) (iconns : List RConn)
      (origPos : List (String × Point)) (lvl : ℤ)

/-- The scene contents relevant to serialization. -/
structure RScene where
  nodes : List RNode
  conns : List RConn

def rnodeId : RNode → ℕ
  | RNode.plain i _ _ _ _ _ => i
  | RNode.group i _ _ _ _ _ _ _ _ => i

def rnodeType : RNode → String
  | RNode.plain _ ty _ _ _ _ => ty
  | RNode.group _ _ _ _ _ _ _ _ _ => "group"

def rnodeName : RNode → String
  | RNode.plain _ _ nm _ _ _ => nm
  | RNode.group _ nm _ _ _ _ _ _ _ => nm

def rnodePos : RNode → Point
  | RNode.plain _ _ _ p _ _ => p
  | RNode.group _ _ p _ _ _ _ _ _ => p

def rnodeInC : RNode → ℤ
  | RNode.plain _ _ _ _ c _ => c
  | RNode.group _ _ _ c _ _ _ _ _ => c

def rnodeOutC : RNode → ℤ
  | RNode.plain _ _ _ _ _ c => c
  | RNode.group _ _ _ _ c _ _ _ _ => c

def rnodeIsGroup : RNode → Bool
  | RNode.plain _ _ _ _ _ _ => false
  | RNode.group _ _ _ _ _ _ _ _ _ => true

def rnodeInternals : RNode → List RNode
  | RNode.plain _ _ _ _ _ _ => []
  | RNode.group _ _ _ _ _ ns _ _ _ => ns

def rnodeIconns : RNode → List RConn
  | RNode.plain _ _ _ _ _ _ => []
  | RNode.group _ _ _ _ _ _ cs _ _ => cs

def rnodeLevel : RNode → ℤ
  | RNode.plain _ _ _ _ _ _ => 0
  | RNode.group _ _ _ _ _ _ _ _ lvl => lvl

/-- `Node::toJson` (NON-virtual): always the base-class fields, even when
the object is really a `GroupNode` — called statically through a `Node*` in
`NodeScene::getFlowData` for internal nodes. -/
def nodeToJsonBase (n : RNode) : JVal :=
  JVal.jobj [("id", JVal.jstr (toString (rnodeId n))), ("type", JVal.jstr (rnodeType n)),
    ("name", JVal.jstr (rnodeName n)), ("x", JVal.jnum (rnodePos n).x),
    ("y", JVal.jnum (rnodePos n).y), ("inputPortCount", JVal.jint (rnodeInC n)),
    ("outputPortCount", JVal.jint (rnodeOutC n))]

/-- `Connection::toJson`: endpoints as decimal pointer strings under the
keys `fromNode`/`toNode`, ports under `fromPortIndex`/`toPortIndex`. -/
def connToJson (c : RConn) : JVal :=
  JVal.jobj [("fromNode", JVal.jstr (toString c.fromId)),
    ("toNode", JVal.jstr (toString c.toId)),
    ("fromPortIndex", JVal.jint c.fromPort), ("toPortIndex", JVal.jint c.toPort),
    ("lineType", JVal.jint c.lineType)]

/-- The per-node object of `NodeScene::getFlowData`: id `node_<ptr>`,
position subobject, port counts, and — only when the top-level object is
dynamically a group — the group payload. -/
def topNodeToJson (n : RNode) : JVal :=
  match n with
  | RNode.plain i ty nm pos inC outC =>
    JVal.jobj [("id", JVal.jstr ("node_" ++ toString i)), ("type", JVal.jstr ty),
      ("name", JVal.jstr nm),
      ("position", JVal.jobj [("x", JVal.jnum pos.x), ("y", JVal.jnum pos.y)]),
      ("inputPortCount", JVal.jint inC), ("outputPortCount", JVal.jint outC)]
  | RNode.group i nm pos inC outC internals iconns origPos _ =>
    JVal.jobj [("id", JVal.jstr ("node_" ++ toString i)), ("type", JVal.jstr "group"),
      ("name", JVal.jstr nm),
      ("position", JVal.jobj [("x", JVal.jnum pos.x), ("y", JVal.jnum pos.y)]),
      ("inputPortCount", JVal.jint inC), ("outputPortCount", JVal.jint outC),
      ("isGroup", JVal.jbool true),
      ("internalNodes", JVal.jarr (internals.map nodeToJsonBase)),
      ("internalConnections", JVal.jarr (iconns.map connToJson)),
      ("originalPositions", JVal.jarr (origPos.map fun q =>
        JVal.jobj [("nodeName", JVal.jstr q.1), ("x", JVal.jnum q.2.x),
          ("y", JVal.jnum q.2.y)]))]

/-- `NodeScene::getFlowData`: metadata, the node array, and the connection
array with keys `from`/`fromPort`/`to`/`toPort`/`lineType` and `node_<ptr>`
references. -/
def getFlowData (s : RScene) : JVal :=
  JVal.jobj [("metadata", JVal.jobj [("title", JVal.jstr "可视化节点编辑器流程图"),
      ("version", JVal.jstr "1.2")]),
    ("nodes", JVal.jarr (s.nodes.map topNodeToJson)),
    ("connections", JVal.jarr (s.conns.map fun c =>
      JVal.jobj [("from", JVal.jstr ("node_" ++ toString c.fromId)),
        ("fromPort", JVal.jint c.fromPort),
        ("to", JVal.jstr ("node_" ++ toString c.toId)),
        ("toPort", JVal.jint c.toPort),
        ("lineType", JVal.jint c.lineType)]))]

/-- `Node::fromJson`: ALWAYS builds a plain `Node` (fresh object identity):
type/name strings, position from the `position` object or the `x`/`y` keys,
port counts through the clamping setters when present (constructor default
1 otherwise). -/
def nodeFromJson (fresh : ℕ) (o : List (String × JVal)) : RNode :=
  let ty := jToString (sLookup o "type")
  let nm := jToString (sLookup o "name")
  let pos : Point :=
    match sLookup o "position" with
    | some (JVal.jobj po) => ⟨jToDouble (sLookup po "x"), jToDouble (sLookup po "y")⟩
    | _ => ⟨jToDouble (sLookup o "x"), jToDouble (sLookup o "y")⟩
  let inC := if jContains o "inputPortCount" then
      max 0 (jToInt 0 (sLookup o "inputPortCount")) else 1
  let outC := if jContains o "outputPortCount" then
      max 0 (jToInt 0 (sLookup o "outputPortCount")) else 1
  RNode.plain fresh ty nm pos inC outC

/-- The group engine's view of a restored internal node. -/
def rnodeGView (n : RNode) : GNode :=
  ⟨rnodeId n, rnodeName n, rnodeInC n, rnodeOutC n⟩

/-- The group engine's view of a restored internal connection. -/
def rconnToConnRec (c : RConn) : ConnRec :=
  ⟨0, c.fromId, c.fromPort, c.toId, c.toPort, c.lineType⟩

/-- The loader's running state: restored nodes, the id-string map
(`nodeMap`), and the fresh-pointer counter. -/
structure LoadSt where
  nodes : List RNode
  nmap : List (String × ℕ)
  fresh : ℕ

/-- The group branch's running state over the internal-node array. -/
structure GLoadSt where
  internals : List RNode
  imap : List (String × ℕ)
  fresh : ℕ

/-- One node of `NodeScene::loadFlowData`: the group branch restores
internal nodes through `Node::fromJson`, rebuilds internal connections by
looking the `fromNode`/`toNode` strings up in the NAME-keyed internal map
(dropping the pair when either lookup fails), keeps only original
positions whose `nodeName` resolves, and recomputes the port mappings; the
other branch is a plain `Node::fromJson`. -/
def loadOneNode (st : LoadSt) (v : JVal) : LoadSt :=
  let o := jToObject v
  if jToBool false (sLookup o "isGroup") then
    let nm := jToString (sLookup o "name")
    let po := jToObject ((sLookup o "position").getD (JVal.jobj []))
    let pos : Point := ⟨jToDouble (sLookup po "x"), jToDouble (sLookup po "y")⟩
    let ist := (jToArray (sLookup o "internalNodes")).foldl
      (fun (ist : GLoadSt) v2 =>
        let io := jToObject v2
        let nd := nodeFromJson ist.fresh io
        ⟨ist.internals ++ [nd], (jToString (sLookup io "name"), ist.fresh) :: ist.imap,
          ist.fresh + 1⟩)
      (⟨[], [], st.fresh⟩ : GLoadSt)
    let iconns := (jToArray (sLookup o "internalConnections")).foldl
      (fun (acc : List RConn) v2 =>
        let co := jToObject v2
        match sLookup ist.imap (jToString (sLookup co "fromNode")),
              sLookup ist.imap (jToString (sLookup co "toNode")) with
        | some fn, some tn =>
          acc ++ [⟨fn, tn, jToInt 0 (sLookup co "fromPort"),
            jToInt 0 (sLookup co "toPort"), 0⟩]
        | _, _ => acc) []
    let ops := (jToArray (sLookup o "originalPositions")).foldl
      (fun (acc : List (String × Point)) v2 =>
        let po2 := jToObject v2
        let nodeName := jToString (sLookup po2 "nodeName")
        if (sLookup ist.imap nodeName).isSome then
          acc ++ [(nodeName,
            (⟨jToDouble (sLookup po2 "x"), jToDouble (sLookup po2 "y")⟩ : Point))]
        else acc) []
    let maps := calculatePortMappingsLists (ist.internals.map rnodeGView)
      (iconns.map rconnToConnRec) []
    ⟨st.nodes ++ [RNode.group ist.fresh nm pos (max 1 (maps.1.length : ℤ))
        (max 1 (maps.2.length : ℤ)) ist.internals iconns ops 1],
      (jToString (sLookup o "id"), ist.fresh) :: st.nmap, ist.fresh + 1⟩
  else
    let nd := nodeFromJson st.fresh o
    ⟨st.nodes ++ [nd], (jToString (sLookup o "id"), st.fresh) :: st.nmap, st.fresh + 1⟩

/-- One connection of `NodeScene::loadFlowData`: the reference keys prefer
`from`/`to` and fall back to `fromNode`/`toNode`; both endpoints must
resolve in `nodeMap` or the connection is dropped; ports come from
`fromPort`/`toPort` with default 0, the line type from `lineType` when
present. -/
def loadOneConn (nmap : List (String × ℕ)) (acc : List RConn) (v : JVal) : List RConn :=
  let co := jToObject v
  let fromNodeId := if jContains co "from" then jToString (sLookup co "from")
    else jToString (sLookup co "fromNode")
  let toNodeId := if jContains co "to" then jToString (sLookup co "to")
    else jToString (sLookup co "toNode")
  match sLookup nmap fromNodeId, sLookup nmap toNodeId with
  | some fn, some tn =>
    acc ++ [⟨fn, tn, jToInt 0 (sLookup co "fromPort"), jToInt 0 (sLookup co "toPort"),
      if jContains co "lineType" then jToInt 0 (sLookup co "lineType") else 0⟩]
  | _, _ => acc

/-- `NodeScene::loadFlowData`: `clear()` drops the previous scene
unconditionally, then nodes and connections are rebuilt from the data. -/
def loadFlowData (_prev : RScene) (data : JVal) : RScene :=
  let dataO := jToObject data
  let st := (jToArray (sLookup dataO "nodes")).foldl loadOneNode (⟨[], [], 0⟩ : LoadSt)
  let conns := (jToArray (sLookup dataO "connections")).foldl (loadOneConn st.nmap) []
  ⟨st.nodes, conns⟩

/-- `QJsonDocument::object`: a parse failure yields a null document and a
non-object document has no object — both give the empty object. -/
def docObject : Option JVal → JVal
  | some (JVal.jobj l) => JVal.jobj l
  | _ => JVal.jobj []

/-- `MainWindow::onLoadProject` after a successful file read: load whatever
`doc.object()` gives — with no validity check — and report success
(`"项目加载成功"`); the Bool is whether success was reported. -/
def onLoadProject (prev : RScene) (parsed : Option JVal) : RScene × Bool :=
  (loadFlowData prev (docObject parsed), true)

/-- Internal plain node A of the nested group. -/
def rnA : RNode := RNode.plain 12 "math" "A" ⟨0, 0⟩ 1 1

/-- Internal plain node B of the nested group. -/
def rnB : RNode := RNode.plain 13 "math" "B" ⟨10, 0⟩ 1 1

/-- The nested (inner) group H containing A, B and the connection A→B. -/
def rnH : RNode := RNode.group 11 "H" ⟨5, 0⟩ 1 1 [rnA, rnB] [⟨12, 13, 0, 0, 0⟩]
  [("A", ⟨0, 0⟩), ("B", ⟨10, 0⟩)] 1

/-- Plain node P inside the outer group. -/
def rnP : RNode := RNode.plain 14 "io" "P" ⟨20, 0⟩ 1 1

/-- The outer group G (level 2) containing the group H, the node P and the
internal connection H→P. -/
def rnG : RNode := RNode.group 10 "G" ⟨8, 0⟩ 1 1 [rnH, rnP] [⟨11, 14, 0, 0, 0⟩]
  [("H", ⟨5, 0⟩), ("P", ⟨20, 0⟩)] 2

/-- A scene holding one nested group: G contains the group H. -/
def gSceneNested : RScene := ⟨[rnG], []⟩

/-- A one-node scene that a malformed load wipes out. -/
def rScenePrev : RScene := ⟨[RNode.plain 1 "signal_source" "N" ⟨0, 0⟩ 1 1], []⟩

theorem Point.add_def (a b : Point) : a + b = ⟨a.x + b.x, a.y + b.y⟩ := rfl

theorem Point.sub_def (a b : Point) : a - b = ⟨a.x - b.x, a.y - b.y⟩ := rfl

theorem setInputPortCount_inputPortCount (n : NodeGeom) (c : ℤ) :
    (setInputPortCount n c).inputPortCount = max 0 c := by
  unfold setInputPortCount
  split <;> simp_all

theorem setOutputPortCount_outputPortCount (n : NodeGeom) (c : ℤ) :
    (setOutputPortCount n c).outputPortCount = max 0 c := by
  unfold setOutputPortCount
  split <;> simp_all

theorem setInputPortCount_outputPortCount (n : NodeGeom) (c : ℤ) :
    (setInputPortCount n c).outputPortCount = n.outputPortCount := by
  unfold setInputPortCount
  split <;> simp

theorem setOutputPortCount_inputPortCount (n : NodeGeom) (c : ℤ) :
    (setOutputPortCount n c).inputPortCount = n.inputPortCount := by
  unfold setOutputPortCount
  split <;> simp

theorem getInputPortPos_in_range (n : NodeGeom) (i : ℤ) (h0 : 0 ≤ i)
    (hlt : i < n.inputPortCount) :
    getInputPortPos n i =
      ⟨n.pos.x + -n.width / 2, n.pos.y + calculatePortYOffset i n.inputPortCount n.height⟩ := by
  unfold getInputPortPos
  rw [if_neg (by omega), if_neg (by omega)]

theorem getOutputPortPos_in_range (n : NodeGeom) (i : ℤ) (h0 : 0 ≤ i)
    (hlt : i < n.outputPortCount) :
    getOutputPortPos n i =
      ⟨n.pos.x + n.width / 2, n.pos.y + calculatePortYOffset i n.outputPortCount n.height⟩ := by
  unfold getOutputPortPos
  rw [if_neg (by omega), if_neg (by omega)]

theorem calculatePortYOffset_single (i : ℤ) (H : ℚ) : calculatePortYOffset i 1 H = 0 := by
  unfold calculatePortYOffset
  norm_num

theorem calculatePortYOffset_formula (i count : ℤ) (H : ℚ) (h : 1 < count) :
    calculatePortYOffset i count H =
      -(2 / 5 * H) + (i : ℚ) * (4 / 5 * H / ((count : ℚ) - 1)) := by
  unfold calculatePortYOffset
  rw [if_neg (by omega), if_neg (by omega)]
  ring

/-- C8: for a node with `count` ports of a direction, a single port sits at the
node's vertical center on the corresponding edge (`x = ∓W/2` from the node
center); for `count > 1`, port `i` sits at vertical offset
`-0.4·H + i·(0.8·H/(count-1))`, the first and last port are exactly `0.8·H`
apart, and the offsets are symmetric about the vertical center; for
`count ≤ 0` the query returns the edge-midpoint anchor. -/
theorem C8_port_distribution :
    (∀ n : NodeGeom, n.inputPortCount = 1 →
        getInputPortPos n 0 = ⟨n.pos.x - n.width / 2, n.pos.y⟩) ∧
    (∀ n : NodeGeom, n.outputPortCount = 1 →
        getOutputPortPos n 0 = ⟨n.pos.x + n.width / 2, n.pos.y⟩) ∧
    (∀ (n : NodeGeom) (i : ℤ), 1 < n.inputPortCount → 0 ≤ i → i < n.inputPortCount →
        getInputPortPos n i = ⟨n.pos.x - n.width / 2,
          n.pos.y - 2 / 5 * n.height +
            (i : ℚ) * (4 / 5 * n.height / ((n.inputPortCount : ℚ) - 1))⟩) ∧
    (∀ (n : NodeGeom) (i : ℤ), 1 < n.outputPortCount → 0 ≤ i → i < n.outputPortCount →
        getOutputPortPos n i = ⟨n.pos.x + n.width / 2,
          n.pos.y - 2 / 5 * n.height +
            (i : ℚ) * (4 / 5 * n.height / ((n.outputPortCount : ℚ) - 1))⟩) ∧
    (∀ (count : ℤ) (H : ℚ), 1 < count →
        calculatePortYOffset (count - 1) count H - calculatePortYOffset 0 count H =
          4 / 5 * H) ∧
    (∀ (count i : ℤ) (H : ℚ), 0 < count → 0 ≤ i → i < count →
        calculatePortYOffset i count H + calculatePortYOffset (count - 1 - i) count H = 0) ∧
    (∀ (n : NodeGeom) (i : ℤ), n.inputPortCount ≤ 0 →
        getInputPortPos n i = ⟨n.pos.x - n.width / 2, n.pos.y⟩) ∧
    (∀ (n : NodeGeom) (i : ℤ), n.outputPortCount ≤ 0 →
        getOutputPortPos n i = ⟨n.pos.x + n.width / 2, n.pos.y⟩) := by
  refine ⟨?_, ?_, ?_, ?_, ?_, ?_, ?_, ?_⟩
  · intro n h
    rw [getInputPortPos_in_range n 0 le_rfl (by omega), h, calculatePortYOffset_single]
    exact congrArg₂ Point.mk (by ring) (by ring)
  · intro n h
    rw [getOutputPortPos_in_range n 0 le_rfl (by omega), h, calculatePortYOffset_single]
    exact congrArg₂ Point.mk (by ring) (by ring)
  · intro n i h1 h0 hlt
    rw [getInputPortPos_in_range n i h0 hlt, calculatePortYOffset_formula i _ _ h1]
    exact congrArg₂ Point.mk (by ring) (by ring)
  · intro n i h1 h0 hlt
    rw [getOutputPortPos_in_range n i h0 hlt, calculatePortYOffset_formula i _ _ h1]
    exact congrArg₂ Point.mk (by ring) (by ring)
  · intro count H h1
    rw [calculatePortYOffset_formula _ _ _ h1, calculatePortYOffset_formula _ _ _ h1]
    have hcq : ((count : ℚ) - 1) ≠ 0 := by
      have h1q : (1 : ℚ) < (count : ℚ) := by exact_mod_cast h1
      intro hcon
      nlinarith
    push_cast
    field_simp
    ring
  · intro count i H hc h0 hlt
    rcases eq_or_lt_of_le (by omega : (1 : ℤ) ≤ count) with h1 | h1
    · have hi : i = 0 := by omega
      subst hi
      rw [← h1]
      simp [calculatePortYOffset_single]
    · rw [calculatePortYOffset_formula _ _ _ h1, calculatePortYOffset_formula _ _ _ h1]
      have hcq : ((count : ℚ) - 1) ≠ 0 := by
        have h1q : (1 : ℚ) < (count : ℚ) := by exact_mod_cast h1
        intro hcon
        nlinarith
      push_cast
      field_simp
      ring
  · intro n i h
    unfold getInputPortPos
    rw [if_pos h]
    exact congrArg₂ Point.mk (by ring) rfl
  · intro n i h
    unfold getOutputPortPos
    rw [if_pos h]

theorem mem_qsetInsert (s : List PortKey) (k k' : PortKey) :
    k' ∈ qsetInsert s k ↔ k' ∈ s ∨ k' = k := by
  by_cases h : k ∈ s
  · simp only [qsetInsert, if_pos h]
    constructor
    · exact Or.inl
    · rintro (hh | rfl)
      · exact hh
      · exact h
  · simp [qsetInsert, if_neg h]

theorem mem_markInternal_foldl (conns : List ConnRec) (s : List PortKey) (k : PortKey) :
    (k ∈ conns.foldl
        (fun s c =>
          qsetInsert (qsetInsert s (c.fromNode, c.fromPort, false)) (c.toNode, c.toPort, true))
        s) ↔
      k ∈ s ∨ k ∈ internalEndpointKeys conns := by
  induction conns generalizing s with
  | nil => simp [internalEndpointKeys]
  | cons c rest ih =>
    rw [List.foldl_cons, ih, mem_qsetInsert, mem_qsetInsert]
    simp only [internalEndpointKeys, List.flatMap_cons, List.mem_append, List.mem_cons,
      List.mem_singleton, List.not_mem_nil, or_false]
    simp only [internalEndpointKeys] at *
    tauto

theorem mem_markInternalConnections (conns : List ConnRec) (k : PortKey) :
    k ∈ markInternalConnections conns ↔ k ∈ internalEndpointKeys conns := by
  unfold markInternalConnections
  rw [mem_markInternal_foldl]
  simp

theorem mem_connectedAfterExternals (exts : List ExternalConnection) (s : List PortKey)
    (k : PortKey) :
    k ∈ connectedAfterExternals s exts ↔ k ∈ s ∨ ∃ e ∈ exts, extKey e = k := by
  induction exts generalizing s with
  | nil => simp [connectedAfterExternals]
  | cons e rest ih =>
    show (k ∈ rest.foldl (fun s e => qsetInsert s (extKey e)) (qsetInsert s (extKey e))) ↔ _
    rw [show (rest.foldl (fun s e => qsetInsert s (extKey e)) (qsetInsert s (extKey e))) =
        connectedAfterExternals (qsetInsert s (extKey e)) rest from rfl, ih, mem_qsetInsert]
    simp only [List.mem_cons]
    constructor
    · rintro ((hs | rfl) | ⟨e', he', hk⟩)
      · exact Or.inl hs
      · exact Or.inr ⟨e, Or.inl rfl, rfl⟩
      · exact Or.inr ⟨e', Or.inr he', hk⟩
    · rintro (hs | ⟨e', (rfl | he'), hk⟩)
      · exact Or.inl (Or.inl hs)
      · exact Or.inl (Or.inr hk.symm)
      · exact Or.inr ⟨e', he', hk⟩

theorem mappingKey_extMapping (e : ExternalConnection) : mappingKey (extMapping e) = extKey e :=
  rfl

theorem mem_danglingInputMappings_notMem (connected : List PortKey) (nodes : List GNode)
    (m : PortMapping) (hm : m ∈ danglingInputMappings connected nodes) :
    mappingKey m ∉ connected := by
  unfold danglingInputMappings at hm
  rw [List.mem_flatMap] at hm
  obtain ⟨nd, hnd, hm⟩ := hm
  rw [List.mem_filterMap] at hm
  obtain ⟨i, hi, heq⟩ := hm
  by_cases h : (nd.nid, i, true) ∈ connected
  · rw [if_pos h] at heq
    cases heq
  · rw [if_neg h] at heq
    cases heq
    exact h

theorem mem_danglingOutputMappings_notMem (connected : List PortKey) (nodes : List GNode)
    (m : PortMapping) (hm : m ∈ danglingOutputMappings connected nodes) :
    mappingKey m ∉ connected := by
  unfold danglingOutputMappings at hm
  rw [List.mem_flatMap] at hm
  obtain ⟨nd, hnd, hm⟩ := hm
  rw [List.mem_filterMap] at hm
  obtain ⟨i, hi, heq⟩ := hm
  by_cases h : (nd.nid, i, false) ∈ connected
  · rw [if_pos h] at heq
    cases heq
  · rw [if_neg h] at heq
    cases heq
    exact h

theorem calculatePortMappings_inputPortMappings (g : NodeGeom) (nodes : List GNode)
    (iconns : List ConnRec) (exts : List ExternalConnection) :
    (calculatePortMappings g nodes iconns exts).inputPortMappings =
      ((exts.filter fun e => e.isInput).map extMapping) ++
        danglingInputMappings
          (connectedAfterExternals (markInternalConnections iconns) exts) nodes := rfl

theorem calculatePortMappings_outputPortMappings (g : NodeGeom) (nodes : List GNode)
    (iconns : List ConnRec) (exts : List ExternalConnection) :
    (calculatePortMappings g nodes iconns exts).outputPortMappings =
      ((exts.filter fun e => !e.isInput).map extMapping) ++
        danglingOutputMappings
          (connectedAfterExternals (markInternalConnections iconns) exts) nodes := rfl

theorem length_filter_map_extMapping (l : List ExternalConnection) (k : PortKey) :
    ((l.map extMapping).filter fun m => mappingKey m = k).length =
      (l.filter fun e => extKey e = k).length := by
  induction l with
  | nil => rfl
  | cons e rest ih =>
    simp only [List.map_cons, List.filter_cons, mappingKey_extMapping]
    by_cases h : extKey e = k
    · simp [h, ih]
    · simp [h, ih]

theorem length_filter_eq_key_of_nodup {α β : Type} [DecidableEq β] (f : α → β) (l : List α)
    (a : α) (hnd : (l.map f).Nodup) (ha : a ∈ l) :
    (l.filter fun x => f x = f a).length = 1 := by
  induction l with
  | nil => cases ha
  | cons b rest ih =>
    rw [List.map_cons, List.nodup_cons] at hnd
    obtain ⟨hb, hrest⟩ := hnd
    rcases List.mem_cons.mp ha with rfl | ha'
    · have hempty : rest.filter (fun x => decide (f x = f a)) = [] := by
        rw [List.filter_eq_nil_iff]
        intro x hx
        simp only [decide_eq_true_eq]
        intro hfx
        exact hb (by rw [← hfx]; exact List.mem_map_of_mem f hx)
      simp [List.filter_cons, hempty]
    · have hb' : ¬ f b = f a := fun h => hb (h ▸ List.mem_map_of_mem f ha')
      simp [List.filter_cons, hb', ih hrest ha']

/-- Counterexample to C2 as stated.  First part: with internal connection
`A.out0 → B.in0` and an external connection also ending at `B.in0` (two
connections into the same input port, which the scene permits), the port
`B.in0` is an endpoint of an internal connection yet appears in the group's
input port mappings.  Second part: with two distinct external connections
sharing the internal endpoint `B.in0`, that endpoint appears twice, not once,
in the input mapping list. -/
theorem C2_counterexample :
    ((1, 0, true) ∈ internalEndpointKeys [connAB] ∧
      1 ≤ ((calculatePortMappings groupGeomDefault [gnA, gnB] [connAB] [extXB]).inputPortMappings.filter
            fun m => mappingKey m = ((1 : ℕ), (0 : ℤ), true)).length) ∧
    ((calculatePortMappings groupGeomDefault [gnB] [] [extXB, extYB]).inputPortMappings.filter
        fun m => mappingKey m = ((1 : ℕ), (0 : ℤ), true)).length = 2 := by
  decide

/-- C2 (amended): provided no external descriptor's internal endpoint is also
an endpoint of an internal connection, a port that is an endpoint of some
internal connection never appears in the group's mapping lists; and provided
additionally that the external descriptors' internal endpoints are pairwise
distinct, every external descriptor's internal endpoint appears exactly once
in the corresponding mapping list.  (Unconditionally, each descriptor emits
exactly one mapping entry, in descriptor order — the external entries form
the prefix of the list, see `calculatePortMappings_inputPortMappings`.) -/
theorem C2_port_mapping_exclusivity (g : NodeGeom) (nodes : List GNode)
    (iconns : List ConnRec) (exts : List ExternalConnection)
    (hdisj : ∀ e ∈ exts, extKey e ∉ internalEndpointKeys iconns)
    (hnodup : (exts.map extKey).Nodup) :
    (∀ k ∈ internalEndpointKeys iconns,
        (∀ m ∈ (calculatePortMappings g nodes iconns exts).inputPortMappings,
            mappingKey m ≠ k) ∧
        (∀ m ∈ (calculatePortMappings g nodes iconns exts).outputPortMappings,
            mappingKey m ≠ k)) ∧
    (∀ e ∈ exts, e.isInput = true →
        ((calculatePortMappings g nodes iconns exts).inputPortMappings.filter
            fun m => mappingKey m = extKey e).length = 1) ∧
    (∀ e ∈ exts, e.isInput = false →
        ((calculatePortMappings g nodes iconns exts).outputPortMappings.filter
            fun m => mappingKey m = extKey e).length = 1) := by
  have hconn : ∀ k, k ∈ connectedAfterExternals (markInternalConnections iconns) exts ↔
      k ∈ internalEndpointKeys iconns ∨ ∃ e ∈ exts, extKey e = k := by
    intro k
    rw [mem_connectedAfterExternals, mem_markInternalConnections]
  refine ⟨?_, ?_, ?_⟩
  · intro k hk
    constructor
    · intro m hm
      rw [calculatePortMappings_inputPortMappings, List.mem_append] at hm
      rcases hm with hm | hm
      · rw [List.mem_map] at hm
        obtain ⟨e, he, rfl⟩ := hm
        rw [List.mem_filter] at he
        rw [mappingKey_extMapping]
        intro hkk
        exact hdisj e he.1 (hkk ▸ hk)
      · intro hkk
        exact mem_danglingInputMappings_notMem _ _ _ hm ((hconn _).mpr (Or.inl (hkk ▸ hk)))
    · intro m hm
      rw [calculatePortMappings_outputPortMappings, List.mem_append] at hm
      rcases hm with hm | hm
      · rw [List.mem_map] at hm
        obtain ⟨e, he, rfl⟩ := hm
        rw [List.mem_filter] at he
        rw [mappingKey_extMapping]
        intro hkk
        exact hdisj e he.1 (hkk ▸ hk)
      · intro hkk
        exact mem_danglingOutputMappings_notMem _ _ _ hm ((hconn _).mpr (Or.inl (hkk ▸ hk)))
  · intro e he hin
    rw [calculatePortMappings_inputPortMappings, List.filter_append, List.length_append]
    have hdang : (danglingInputMappings
        (connectedAfterExternals (markInternalConnections iconns) exts) nodes).filter
          (fun m => decide (mappingKey m = extKey e)) = [] := by
      rw [List.filter_eq_nil_iff]
      intro m hm
      simp only [decide_eq_true_eq]
      intro hkk
      exact mem_danglingInputMappings_notMem _ _ _ hm
        ((hconn (mappingKey m)).mpr (Or.inr ⟨e, he, hkk.symm⟩))
    rw [hdang, List.length_nil, length_filter_map_extMapping]
    have hsub : ((exts.filter fun e => e.isInput).map extKey).Nodup :=
      hnodup.sublist (List.Sublist.map extKey (List.filter_sublist exts))
    have hmem : e ∈ exts.filter fun e => e.isInput :=
      List.mem_filter.mpr ⟨he, by rw [hin]⟩
    have := length_filter_eq_key_of_nodup extKey (exts.filter fun e => e.isInput) e hsub hmem
    omega
  · intro e he hout
    rw [calculatePortMappings_outputPortMappings, List.filter_append, List.length_append]
    have hdang : (danglingOutputMappings
        (connectedAfterExternals (markInternalConnections iconns) exts) nodes).filter
          (fun m => decide (mappingKey m = extKey e)) = [] := by
      rw [List.filter_eq_nil_iff]
      intro m hm
      simp only [decide_eq_true_eq]
      intro hkk
      exact mem_danglingOutputMappings_notMem _ _ _ hm
        ((hconn (mappingKey m)).mpr (Or.inr ⟨e, he, hkk.symm⟩))
    rw [hdang, List.length_nil, length_filter_map_extMapping]
    have hsub : ((exts.filter fun e => !e.isInput).map extKey).Nodup :=
      hnodup.sublist (List.Sublist.map extKey (List.filter_sublist exts))
    have hmem : e ∈ exts.filter fun e => !e.isInput :=
      List.mem_filter.mpr ⟨he, by rw [hout]; rfl⟩
    have := length_filter_eq_key_of_nodup extKey (exts.filter fun e => !e.isInput) e hsub hmem
    omega

/-- Witness for `C2_port_mapping_exclusivity` at a concrete group: internal
connection `A.out0 → B.in0` with one external descriptor into `A.in0`. -/
theorem C2_port_mapping_exclusivity_witness :
    ((∀ e ∈ ([⟨100, 0, gnA, 0, true, ⟨11, 100, 0, 0, 0, 0⟩⟩] : List ExternalConnection),
        extKey e ∉ internalEndpointKeys [connAB]) ∧
      ((([⟨100, 0, gnA, 0, true, ⟨11, 100, 0, 0, 0, 0⟩⟩] :
        List ExternalConnection).map extKey).Nodup)) ∧
    (∀ m ∈ (calculatePortMappings groupGeomDefault [gnA, gnB] [connAB]
        [⟨100, 0, gnA, 0, true, ⟨11, 100, 0, 0, 0, 0⟩⟩]).inputPortMappings,
      mappingKey m ≠ ((0 : ℕ), (0 : ℤ), false)) :=
  ⟨⟨by decide, by decide⟩,
    ((C2_port_mapping_exclusivity groupGeomDefault [gnA, gnB] [connAB]
      [⟨100, 0, gnA, 0, true, ⟨11, 100, 0, 0, 0, 0⟩⟩]
      (by decide) (by decide)).1 ((0 : ℕ), (0 : ℤ), false) (by decide)).1⟩

theorem qBound_eq_self (lo v hi : ℚ) (h1 : lo ≤ v) (h2 : v ≤ hi) : qBound lo v hi = v := by
  unfold qBound
  rw [min_eq_right h2, max_eq_right h1]

theorem setInputPortCount_width (n : NodeGeom) (c : ℤ) :
    (setInputPortCount n c).width = n.width := by
  unfold setInputPortCount
  split <;> rfl

theorem setInputPortCount_height (n : NodeGeom) (c : ℤ) :
    (setInputPortCount n c).height = n.height := by
  unfold setInputPortCount
  split <;> rfl

theorem setOutputPortCount_width (n : NodeGeom) (c : ℤ) :
    (setOutputPortCount n c).width = n.width := by
  unfold setOutputPortCount
  split <;> rfl

theorem setOutputPortCount_height (n : NodeGeom) (c : ℤ) :
    (setOutputPortCount n c).height = n.height := by
  unfold setOutputPortCount
  split <;> rfl

theorem groupAdjustHeight_width (g : NodeGeom) (m : ℤ) (hw1 : MIN_WIDTH ≤ g.width)
    (hw2 : g.width ≤ MAX_WIDTH) : (groupAdjustHeight g m).width = g.width := by
  unfold groupAdjustHeight
  by_cases h : g.height < 50 + (m : ℚ) * 20
  · rw [if_pos h]
    exact qBound_eq_self _ _ _ hw1 hw2
  · rw [if_neg h]

theorem groupAdjustHeight_inputPortCount (g : NodeGeom) (m : ℤ) :
    (groupAdjustHeight g m).inputPortCount = g.inputPortCount := by
  unfold groupAdjustHeight
  split <;> rfl

theorem groupAdjustHeight_outputPortCount (g : NodeGeom) (m : ℤ) :
    (groupAdjustHeight g m).outputPortCount = g.outputPortCount := by
  unfold groupAdjustHeight
  split <;> rfl

theorem groupAdjustHeight_spec (g : NodeGeom) (m : ℤ) (hm : 1 ≤ m)
    (hh1 : MIN_HEIGHT ≤ g.height) (hh2 : g.height ≤ MAX_HEIGHT) :
    MIN_HEIGHT ≤ (groupAdjustHeight g m).height ∧
    (groupAdjustHeight g m).height ≤ MAX_HEIGHT ∧
    min (50 + (m : ℚ) * 20) MAX_HEIGHT ≤ (groupAdjustHeight g m).height := by
  have hmq : (1 : ℚ) ≤ (m : ℚ) := by exact_mod_cast hm
  unfold groupAdjustHeight
  by_cases h : g.height < 50 + (m : ℚ) * 20
  · rw [if_pos h]
    show MIN_HEIGHT ≤ qBound MIN_HEIGHT (50 + (m : ℚ) * 20) MAX_HEIGHT ∧
      qBound MIN_HEIGHT (50 + (m : ℚ) * 20) MAX_HEIGHT ≤ MAX_HEIGHT ∧
      min (50 + (m : ℚ) * 20) MAX_HEIGHT ≤ qBound MIN_HEIGHT (50 + (m : ℚ) * 20) MAX_HEIGHT
    have h50 : MIN_HEIGHT ≤ min MAX_HEIGHT (50 + (m : ℚ) * 20) :=
      le_min (by norm_num [MIN_HEIGHT, MAX_HEIGHT]) (by unfold MIN_HEIGHT; nlinarith)
    unfold qBound
    rw [max_eq_right h50]
    exact ⟨h50, min_le_left _ _, by rw [min_comm]⟩
  · rw [if_neg h]
    exact ⟨hh1, hh2, le_trans (min_le_left _ _) (not_lt.mp h)⟩

theorem groupAdjustWidth_spec (g : NodeGeom) (_hw1 : MIN_WIDTH ≤ g.width)
    (hh1 : MIN_HEIGHT ≤ g.height) (hh2 : g.height ≤ MAX_HEIGHT) :
    150 ≤ (groupAdjustWidth g).width ∧ (groupAdjustWidth g).height = g.height ∧
    (groupAdjustWidth g).inputPortCount = g.inputPortCount ∧
    (groupAdjustWidth g).outputPortCount = g.outputPortCount := by
  unfold groupAdjustWidth
  by_cases h : g.width < 150
  · rw [if_pos h]
    refine ⟨?_, ?_, rfl, rfl⟩
    · show (150 : ℚ) ≤ qBound MIN_WIDTH 150 MAX_WIDTH
      rw [qBound_eq_self _ _ _ (by norm_num [MIN_WIDTH]) (by norm_num [MAX_WIDTH])]
    · exact qBound_eq_self _ _ _ hh1 hh2
  · rw [if_neg h]
    exact ⟨not_lt.mp h, rfl, rfl, rfl⟩

theorem calculatePortMappings_geom (g : NodeGeom) (nodes : List GNode) (iconns : List ConnRec)
    (exts : List ExternalConnection) :
    (calculatePortMappings g nodes iconns exts).geom =
      calculatePortMappingsGeom g
        (calculatePortMappings g nodes iconns exts).inputPortMappings
        (calculatePortMappings g nodes iconns exts).outputPortMappings := rfl

theorem calculatePortMappingsGeom_spec (g : NodeGeom) (inMaps outMaps : List PortMapping)
    (hw1 : MIN_WIDTH ≤ g.width) (hw2 : g.width ≤ MAX_WIDTH)
    (hh1 : MIN_HEIGHT ≤ g.height) (hh2 : g.height ≤ MAX_HEIGHT) :
    (calculatePortMappingsGeom g inMaps outMaps).inputPortCount = max 1 (inMaps.length : ℤ) ∧
    (calculatePortMappingsGeom g inMaps outMaps).outputPortCount = max 1 (outMaps.length : ℤ) ∧
    150 ≤ (calculatePortMappingsGeom g inMaps outMaps).width ∧
    min (50 + ((max (max 1 (inMaps.length : ℤ)) (max 1 (outMaps.length : ℤ)) : ℤ) : ℚ) * 20)
        MAX_HEIGHT ≤ (calculatePortMappingsGeom g inMaps outMaps).height := by
  have hgoal : calculatePortMappingsGeom g inMaps outMaps =
      groupAdjustWidth
        (groupAdjustHeight
          (setOutputPortCount (setInputPortCount g (max 1 (inMaps.length : ℤ)))
            (max 1 (outMaps.length : ℤ)))
          (max (max 1 (inMaps.length : ℤ)) (max 1 (outMaps.length : ℤ)))) := rfl
  rw [hgoal]
  set inC : ℤ := max 1 (inMaps.length : ℤ) with hinC
  set outC : ℤ := max 1 (outMaps.length : ℤ) with houtC
  set g1 : NodeGeom := setOutputPortCount (setInputPortCount g inC) outC with hg1
  have hg1w : g1.width = g.width := by
    rw [hg1, setOutputPortCount_width, setInputPortCount_width]
  have hg1h : g1.height = g.height := by
    rw [hg1, setOutputPortCount_height, setInputPortCount_height]
  have hg1in : g1.inputPortCount = inC := by
    rw [hg1, setOutputPortCount_inputPortCount, setInputPortCount_inputPortCount]
    omega
  have hg1out : g1.outputPortCount = outC := by
    rw [hg1, setOutputPortCount_outputPortCount]
    omega
  have hm : 1 ≤ max inC outC := by omega
  obtain ⟨hq1, hq2, hq3⟩ :=
    groupAdjustHeight_spec g1 (max inC outC) hm (hg1h ▸ hh1) (hg1h ▸ hh2)
  set g2 : NodeGeom := groupAdjustHeight g1 (max inC outC) with hg2
  have hg2w : g2.width = g.width := by
    rw [hg2, groupAdjustHeight_width g1 _ (hg1w ▸ hw1) (hg1w ▸ hw2), hg1w]
  obtain ⟨hr1, hr2, hr3, hr4⟩ := groupAdjustWidth_spec g2 (hg2w ▸ hw1) hq1 hq2
  refine ⟨?_, ?_, hr1, ?_⟩
  · rw [hr3, hg2, groupAdjustHeight_inputPortCount, hg1in]
  · rw [hr4, hg2, groupAdjustHeight_outputPortCount, hg1out]
  · rw [hr2]
    exact hq3

/-- Counterexample to C7 as stated: a group whose mapping lists yield eight
input ports would need height `50 + 8·20 = 210`, but `Node::setSize` clamps
the height to `MAX_HEIGHT = 200`, so `height ≥ 50 + maxPortCount·20` fails. -/
theorem C7_counterexample :
    ¬ (50 + ((max (calculatePortMappings groupGeomDefault [gC7node] [] []).geom.inputPortCount
          (calculatePortMappings groupGeomDefault [gC7node] [] []).geom.outputPortCount : ℤ) : ℚ)
          * 20
        ≤ (calculatePortMappings groupGeomDefault [gC7node] [] []).geom.height) := by
  have h1 : (calculatePortMappings groupGeomDefault [gC7node] [] []).inputPortMappings.length
      = 8 := by decide
  have h2 : (calculatePortMappings groupGeomDefault [gC7node] [] []).outputPortMappings.length
      = 0 := by decide
  rw [calculatePortMappings_geom groupGeomDefault [gC7node] [] []]
  unfold calculatePortMappingsGeom
  rw [h1, h2]
  norm_num [setInputPortCount, setOutputPortCount, groupAdjustHeight, groupAdjustWidth,
    setSize, qBound, groupGeomDefault, MIN_WIDTH, MIN_HEIGHT, MAX_WIDTH, MAX_HEIGHT]

/-- C7 (amended): after `calculatePortMappings` on a group whose size is in the
legal `setSize` range, the width is at least 150 and the height is at least
`min (50 + maxPortCount·20) MAX_HEIGHT`, where `maxPortCount` is the larger of
the group's resulting port counts; the stated bound `50 + maxPortCount·20`
itself holds only up to the `MAX_HEIGHT = 200` clamp of `Node::setSize`. -/
theorem C7_group_auto_size (g : NodeGeom) (nodes : List GNode) (iconns : List ConnRec)
    (exts : List ExternalConnection)
    (hw1 : MIN_WIDTH ≤ g.width) (hw2 : g.width ≤ MAX_WIDTH)
    (hh1 : MIN_HEIGHT ≤ g.height) (hh2 : g.height ≤ MAX_HEIGHT) :
    150 ≤ (calculatePortMappings g nodes iconns exts).geom.width ∧
    min (50 + ((max (calculatePortMappings g nodes iconns exts).geom.inputPortCount
          (calculatePortMappings g nodes iconns exts).geom.outputPortCount : ℤ) : ℚ) * 20)
        MAX_HEIGHT ≤ (calculatePortMappings g nodes iconns exts).geom.height := by
  obtain ⟨h1, h2, h3, h4⟩ := calculatePortMappingsGeom_spec g
    (calculatePortMappings g nodes iconns exts).inputPortMappings
    (calculatePortMappings g nodes iconns exts).outputPortMappings hw1 hw2 hh1 hh2
  rw [calculatePortMappings_geom g nodes iconns exts]
  refine ⟨h3, ?_⟩
  rw [h1, h2]
  exact h4

/-- Witness for `C7_group_auto_size` at the concrete group of the C7
counterexample's shape. -/
theorem C7_group_auto_size_witness :
    150 ≤ (calculatePortMappings groupGeomDefault [gC7node] [] []).geom.width ∧
    min (50 + ((max (calculatePortMappings groupGeomDefault [gC7node] [] []).geom.inputPortCount
          (calculatePortMappings groupGeomDefault [gC7node] [] []).geom.outputPortCount : ℤ) : ℚ)
          * 20)
        MAX_HEIGHT ≤ (calculatePortMappings groupGeomDefault [gC7node] [] []).geom.height :=
  C7_group_auto_size groupGeomDefault [gC7node] [] [] (by norm_num [MIN_WIDTH, groupGeomDefault])
    (by norm_num [MAX_WIDTH, groupGeomDefault]) (by norm_num [MIN_HEIGHT, groupGeomDefault])
    (by norm_num [MAX_HEIGHT, groupGeomDefault])

/-- Witness for `C8_port_distribution` at the concrete node `nodeA`. -/
theorem C8_port_distribution_witness :
    getInputPortPos nodeA 1 = ⟨nodeA.pos.x - nodeA.width / 2,
      nodeA.pos.y - 2 / 5 * nodeA.height +
        ((1 : ℤ) : ℚ) * (4 / 5 * nodeA.height / ((nodeA.inputPortCount : ℚ) - 1))⟩ ∧
    getOutputPortPos nodeA 0 = ⟨nodeA.pos.x + nodeA.width / 2, nodeA.pos.y⟩ :=
  ⟨C8_port_distribution.2.2.1 nodeA 1 (by decide) (by decide) (by decide),
   C8_port_distribution.2.1 nodeA (by decide)⟩

/-- C9: the port-position query never fails on a dangling index: any index
outside `[0, count)` — including negative indices — is clamped to `0`, so the
query returns the position of port `0`, for every node. -/
theorem C9_dangling_index_clamp :
    ∀ (n : NodeGeom) (i : ℤ),
      (i < 0 ∨ n.inputPortCount ≤ i → getInputPortPos n i = getInputPortPos n 0) ∧
      (i < 0 ∨ n.outputPortCount ≤ i → getOutputPortPos n i = getOutputPortPos n 0) := by
  intro n i
  constructor
  · intro h
    unfold getInputPortPos
    by_cases h0 : n.inputPortCount ≤ 0
    · rw [if_pos h0, if_pos h0]
    · rw [if_neg h0, if_neg h0, if_pos h, if_neg (by omega)]
  · intro h
    unfold getOutputPortPos
    by_cases h0 : n.outputPortCount ≤ 0
    · rw [if_pos h0, if_pos h0]
    · rw [if_neg h0, if_neg h0, if_pos h, if_neg (by omega)]

/-- Witness for `C9_dangling_index_clamp` at concrete out-of-range indices. -/
theorem C9_dangling_index_clamp_witness :
    getInputPortPos nodeA 7 = getInputPortPos nodeA 0 ∧
    getOutputPortPos nodeA (-2) = getOutputPortPos nodeA 0 :=
  ⟨(C9_dangling_index_clamp nodeA 7).1 (Or.inr (by decide)),
   (C9_dangling_index_clamp nodeA (-2)).2 (Or.inl (by decide))⟩

theorem applyPortCountOps_cons (n : NodeGeom) (op : Bool × ℤ) (rest : List (Bool × ℤ)) :
    applyPortCountOps n (op :: rest) =
      applyPortCountOps (if op.1 then setInputPortCount n op.2 else setOutputPortCount n op.2)
        rest := rfl

/-- C10: both port-count setters store `max(0, c)` for every integer argument,
so any sequence of setter calls keeps both counts non-negative. -/
theorem C10_port_count_nonnegative :
    (∀ (n : NodeGeom) (c : ℤ), (setInputPortCount n c).inputPortCount = max 0 c) ∧
    (∀ (n : NodeGeom) (c : ℤ), (setOutputPortCount n c).outputPortCount = max 0 c) ∧
    (∀ (n : NodeGeom) (ops : List (Bool × ℤ)),
        0 ≤ n.inputPortCount → 0 ≤ n.outputPortCount →
        0 ≤ (applyPortCountOps n ops).inputPortCount ∧
        0 ≤ (applyPortCountOps n ops).outputPortCount) := by
  refine ⟨setInputPortCount_inputPortCount, setOutputPortCount_outputPortCount, ?_⟩
  intro n ops
  induction ops generalizing n with
  | nil => exact fun h1 h2 => ⟨h1, h2⟩
  | cons op rest ih =>
    intro h1 h2
    rw [applyPortCountOps_cons]
    by_cases hb : op.1
    · rw [if_pos hb]
      exact ih _ (by rw [setInputPortCount_inputPortCount]; omega)
        (by rw [setInputPortCount_outputPortCount]; omega)
    · rw [if_neg hb]
      exact ih _ (by rw [setOutputPortCount_inputPortCount]; omega)
        (by rw [setOutputPortCount_outputPortCount]; omega)

/-- Witness for `C10_port_count_nonnegative` at a concrete call sequence with
negative arguments. -/
theorem C10_port_count_nonnegative_witness :
    (setInputPortCount nodeA (-5)).inputPortCount = max 0 (-5) ∧
    0 ≤ (applyPortCountOps nodeA [(true, -3), (false, 4)]).inputPortCount :=
  ⟨C10_port_count_nonnegative.1 nodeA (-5),
   (C10_port_count_nonnegative.2.2 nodeA [(true, -3), (false, 4)] (by decide) (by decide)).1⟩

theorem foldl_removeConn_heap (cs : List ConnRec) (s : SceneState) :
    (cs.foldl removeConnectionFromScene s).heap = s.heap := by
  induction cs generalizing s with
  | nil => rfl
  | cons c rest ih => rw [List.foldl_cons, ih]; rfl

theorem foldl_removeConn_sceneNodes (cs : List ConnRec) (s : SceneState) :
    (cs.foldl removeConnectionFromScene s).sceneNodes = s.sceneNodes := by
  induction cs generalizing s with
  | nil => rfl
  | cons c rest ih => rw [List.foldl_cons, ih]; rfl

theorem foldl_removeConn_sceneConns (cs : List ConnRec) (s : SceneState) :
    (cs.foldl removeConnectionFromScene s).sceneConns =
      s.sceneConns.filter fun d => d.cid ∉ cs.map ConnRec.cid := by
  induction cs generalizing s with
  | nil =>
    simp only [List.foldl_nil, List.map_nil]
    rw [List.filter_eq_self.mpr]
    intro a _
    simp
  | cons c rest ih =>
    rw [List.foldl_cons, ih]
    show (s.sceneConns.filter fun d => d.cid ≠ c.cid).filter _ = _
    rw [List.filter_filter]
    apply List.filter_congr
    intro d _
    by_cases h1 : d.cid = c.cid <;> by_cases h2 : d.cid ∈ rest.map ConnRec.cid <;>
      simp [h1, h2]

theorem foldl_restoreConn_heap (cs : List ConnRec) (s : SceneState) :
    (cs.foldl restoreConnectionToScene s).heap = s.heap := by
  induction cs generalizing s with
  | nil => rfl
  | cons c rest ih => rw [List.foldl_cons, ih]; rfl

theorem foldl_restoreConn_sceneNodes (cs : List ConnRec) (s : SceneState) :
    (cs.foldl restoreConnectionToScene s).sceneNodes = s.sceneNodes := by
  induction cs generalizing s with
  | nil => rfl
  | cons c rest ih => rw [List.foldl_cons, ih]; rfl

theorem foldl_restoreConn_sceneConns (cs : List ConnRec) (s : SceneState) :
    (cs.foldl restoreConnectionToScene s).sceneConns = s.sceneConns ++ cs := by
  induction cs generalizing s with
  | nil => simp
  | cons c rest ih =>
    rw [List.foldl_cons, ih]
    show (s.sceneConns ++ [c]) ++ rest = _
    rw [List.append_assoc]
    rfl

theorem foldl_removeNode_heap (ns : List ℕ) (s : SceneState) :
    (ns.foldl removeNodeFromScene s).heap = s.heap := by
  induction ns generalizing s with
  | nil => rfl
  | cons n rest ih => rw [List.foldl_cons, ih]; rfl

theorem foldl_removeNode_connLists (ns : List ℕ) (s : SceneState) :
    (ns.foldl removeNodeFromScene s).connLists = s.connLists := by
  induction ns generalizing s with
  | nil => rfl
  | cons n rest ih => rw [List.foldl_cons, ih]; rfl

theorem foldl_removeNode_sceneConns (ns : List ℕ) (s : SceneState) :
    (ns.foldl removeNodeFromScene s).sceneConns = s.sceneConns := by
  induction ns generalizing s with
  | nil => rfl
  | cons n rest ih => rw [List.foldl_cons, ih]; rfl

theorem foldl_removeNode_sceneNodes (ns : List ℕ) (s : SceneState) :
    (ns.foldl removeNodeFromScene s).sceneNodes = s.sceneNodes.filter (· ∉ ns) := by
  induction ns generalizing s with
  | nil =>
    simp only [List.foldl_nil]
    rw [List.filter_eq_self.mpr]
    intro a _
    simp
  | cons n rest ih =>
    rw [List.foldl_cons, ih]
    show (s.sceneNodes.filter (· ≠ n)).filter _ = _
    rw [List.filter_filter]
    apply List.filter_congr
    intro d _
    by_cases h1 : d = n <;> by_cases h2 : d ∈ rest <;> simp [h1, h2]

theorem restoreNodesAt_sceneNodes (ps : ℕ → Point) (S : List ℕ) (s : SceneState) :
    (restoreNodesAt ps S s).sceneNodes = s.sceneNodes ++ S := by
  induction S generalizing s with
  | nil => simp [restoreNodesAt]
  | cons n rest ih =>
    show (restoreNodesAt ps rest (restoreNodeToScene (scenePos s n (ps n)) n)).sceneNodes = _
    rw [ih]
    show (s.sceneNodes ++ [n]) ++ rest = _
    rw [List.append_assoc]
    rfl

theorem restoreNodesAt_sceneConns (ps : ℕ → Point) (S : List ℕ) (s : SceneState) :
    (restoreNodesAt ps S s).sceneConns = s.sceneConns := by
  induction S generalizing s with
  | nil => rfl
  | cons n rest ih =>
    show (restoreNodesAt ps rest (restoreNodeToScene (scenePos s n (ps n)) n)).sceneConns = _
    rw [ih]
    rfl

theorem restoreNodesAt_connLists (ps : ℕ → Point) (S : List ℕ) (s : SceneState) :
    (restoreNodesAt ps S s).connLists = s.connLists := by
  induction S generalizing s with
  | nil => rfl
  | cons n rest ih =>
    show (restoreNodesAt ps rest (restoreNodeToScene (scenePos s n (ps n)) n)).connLists = _
    rw [ih]
    rfl

theorem restoreNodesAt_heap (ps : ℕ → Point) (S : List ℕ) (s : SceneState) :
    (restoreNodesAt ps S s).heap = multiSetPos S ps s.heap := by
  induction S generalizing s with
  | nil => rfl
  | cons n rest ih =>
    show (restoreNodesAt ps rest (restoreNodeToScene (scenePos s n (ps n)) n)).heap = _
    rw [ih]
    rfl

theorem assocLookup_cons {α : Type} (p : ℕ × α) (rest : List (ℕ × α)) (k : ℕ) :
    assocLookup (p :: rest) k = if p.1 = k then some p.2 else assocLookup rest k := rfl

theorem assocLookup_append {α : Type} (l1 l2 : List (ℕ × α)) (k : ℕ) :
    assocLookup (l1 ++ l2) k =
      match assocLookup l1 k with
      | some v => some v
      | none => assocLookup l2 k := by
  induction l1 with
  | nil => rfl
  | cons p rest ih =>
    rw [List.cons_append, assocLookup_cons, assocLookup_cons]
    by_cases h : p.1 = k
    · rw [if_pos h, if_pos h]
    · rw [if_neg h, if_neg h, ih]

theorem heapSetPos_cons (p : ℕ × NodeObj) (rest : List (ℕ × NodeObj)) (nid : ℕ) (v : Point) :
    heapSetPos (p :: rest) nid v =
      (if p.1 = nid then (p.1, { p.2 with pos := v }) else p) :: heapSetPos rest nid v := rfl

theorem assocLookup_heapSetPos (h : List (ℕ × NodeObj)) (nid : ℕ) (v : Point) (k : ℕ) :
    assocLookup (heapSetPos h nid v) k =
      if k = nid then (assocLookup h k).map (fun o => { o with pos := v })
      else assocLookup h k := by
  induction h with
  | nil =>
    by_cases hk : k = nid <;> simp [heapSetPos, assocLookup, hk]
  | cons p rest ih =>
    by_cases hp : p.1 = nid
    · by_cases hk : p.1 = k
      · have hkn : k = nid := hk ▸ hp
        simp [heapSetPos_cons, assocLookup_cons, hp, hk, hkn]
      · have hnk : ¬ nid = k := hp ▸ hk
        have hkn : ¬ k = nid := fun hcon => hnk hcon.symm
        simp [heapSetPos_cons, assocLookup_cons, hp, hk, ih, hnk, hkn]
    · by_cases hk : p.1 = k
      · have hkn : ¬ k = nid := fun hcon => hp (hk.trans hcon)
        simp [heapSetPos_cons, assocLookup_cons, hp, hk, hkn]
      · simp [heapSetPos_cons, assocLookup_cons, hp, hk, ih]

theorem heapSetPos_same (h : List (ℕ × NodeObj)) (n : ℕ) (p q : Point) :
    heapSetPos (heapSetPos h n p) n q = heapSetPos h n q := by
  unfold heapSetPos
  rw [List.map_map]
  apply List.map_congr_left
  intro a _
  by_cases ha : a.1 = n <;> simp [ha]

theorem heapSetPos_id (h : List (ℕ × NodeObj)) (n : ℕ) (v : Point)
    (hsame : ∀ p ∈ h, p.1 = n → p.2.pos = v) : heapSetPos h n v = h := by
  unfold heapSetPos
  conv_rhs => rw [← List.map_id h]
  apply List.map_congr_left
  intro a ha
  by_cases han : a.1 = n
  · rw [if_pos han, ← hsame a ha han]
    rfl
  · rw [if_neg han]
    rfl

theorem mem_heapSetPos_pos (h : List (ℕ × NodeObj)) (n : ℕ) (v : Point) :
    ∀ p ∈ heapSetPos h n v, p.1 = n → p.2.pos = v := by
  intro p hp hpn
  unfold heapSetPos at hp
  rw [List.mem_map] at hp
  obtain ⟨q, hq, hqp⟩ := hp
  by_cases hqn : q.1 = n
  · rw [if_pos hqn] at hqp
    rw [← hqp]
  · rw [if_neg hqn] at hqp
    exact absurd (hqp ▸ hpn) hqn

theorem mem_heapSetPos_of_ne (h : List (ℕ × NodeObj)) (n : ℕ) (v : Point) :
    ∀ p ∈ heapSetPos h n v, p.1 ≠ n → p ∈ h := by
  intro p hp hpn
  unfold heapSetPos at hp
  rw [List.mem_map] at hp
  obtain ⟨q, hq, hqp⟩ := hp
  by_cases hqn : q.1 = n
  · rw [if_pos hqn] at hqp
    exact absurd (hqp ▸ hqn : p.1 = n) hpn
  · rw [if_neg hqn] at hqp
    exact hqp ▸ hq

theorem mem_multiSetPos_of_not_mem (S : List ℕ) (ps : ℕ → Point) (h : List (ℕ × NodeObj)) :
    ∀ p ∈ multiSetPos S ps h, p.1 ∉ S → p ∈ h := by
  induction S generalizing h with
  | nil => exact fun p hp _ => hp
  | cons n rest ih =>
    intro p hp hpn
    have h1 : p.1 ∉ rest := fun hr => hpn (List.mem_cons_of_mem n hr)
    have h2 : p.1 ≠ n := fun he => hpn (he ▸ List.mem_cons_self n rest)
    exact mem_heapSetPos_of_ne h n (ps n) p (ih (heapSetPos h n (ps n)) p hp h1) h2

theorem mem_multiSetPos_pos (S : List ℕ) (ps : ℕ → Point) (h : List (ℕ × NodeObj)) :
    ∀ p ∈ multiSetPos S ps h, p.1 ∈ S → p.2.pos = ps p.1 := by
  induction S generalizing h with
  | nil => exact fun p _ hmem => absurd hmem (List.not_mem_nil _)
  | cons n rest ih =>
    intro p hp hmem
    by_cases hr : p.1 ∈ rest
    · exact ih (heapSetPos h n (ps n)) p hp hr
    · have h1 : p.1 = n := by
        rcases List.mem_cons.mp hmem with h1 | h1
        · exact h1
        · exact absurd h1 hr
      have h2 : p ∈ heapSetPos h n (ps n) :=
        mem_multiSetPos_of_not_mem rest ps _ p hp hr
      rw [h1]
      exact mem_heapSetPos_pos h n (ps n) p h2 h1

theorem multiSetPos_id (S : List ℕ) (ps : ℕ → Point) (h : List (ℕ × NodeObj))
    (hsame : ∀ p ∈ h, p.1 ∈ S → p.2.pos = ps p.1) : multiSetPos S ps h = h := by
  induction S generalizing h with
  | nil => rfl
  | cons n rest ih =>
    show multiSetPos rest ps (heapSetPos h n (ps n)) = h
    rw [heapSetPos_id h n (ps n)
      (fun p hp hpn => by rw [hsame p hp (hpn ▸ List.mem_cons_self n rest), hpn])]
    exact ih h fun p hp hpn => hsame p hp (List.mem_cons_of_mem n hpn)

theorem assocLookup_multiSetPos (S : List ℕ) (ps : ℕ → Point) (h : List (ℕ × NodeObj))
    (k : ℕ) :
    assocLookup (multiSetPos S ps h) k =
      if k ∈ S then (assocLookup h k).map (fun o => { o with pos := ps k })
      else assocLookup h k := by
  induction S generalizing h with
  | nil => simp [multiSetPos]
  | cons n rest ih =>
    show assocLookup (multiSetPos rest ps (heapSetPos h n (ps n))) k = _
    rw [ih, assocLookup_heapSetPos]
    by_cases hr : k ∈ rest
    · rw [if_pos hr, if_pos (List.mem_cons_of_mem n hr)]
      by_cases hn : k = n
      · rw [if_pos hn, Option.map_map]
        rfl
      · rw [if_neg hn]
    · rw [if_neg hr]
      by_cases hn : k = n
      · rw [if_pos hn, if_pos (hn ▸ List.mem_cons_self n rest), hn]
      · rw [if_neg hn, if_neg (by simp [hn, hr])]

theorem foldl_restoreNode_heap (ns : List ℕ) (s : SceneState) :
    (ns.foldl restoreNodeToScene s).heap = s.heap := by
  induction ns generalizing s with
  | nil => rfl
  | cons n rest ih => rw [List.foldl_cons, ih]; rfl

theorem foldl_restoreNode_sceneConns (ns : List ℕ) (s : SceneState) :
    (ns.foldl restoreNodeToScene s).sceneConns = s.sceneConns := by
  induction ns generalizing s with
  | nil => rfl
  | cons n rest ih => rw [List.foldl_cons, ih]; rfl

theorem foldl_restoreNode_sceneNodes (ns : List ℕ) (s : SceneState) :
    (ns.foldl restoreNodeToScene s).sceneNodes = s.sceneNodes ++ ns := by
  induction ns generalizing s with
  | nil => simp
  | cons n rest ih =>
    rw [List.foldl_cons, ih]
    show (s.sceneNodes ++ [n]) ++ rest = _
    rw [List.append_assoc]
    rfl

theorem foldl_createNodeObj_heap (ns : List (ℕ × NodeObj)) (s : SceneState) :
    ((ns.foldl (fun st p => createNodeObj st p.1 p.2) s)).heap = s.heap ++ ns := by
  induction ns generalizing s with
  | nil => simp
  | cons n rest ih =>
    rw [List.foldl_cons, ih]
    show (s.heap ++ [n]) ++ rest = _
    rw [List.append_assoc]
    rfl

theorem foldl_createNodeObj_sceneNodes (ns : List (ℕ × NodeObj)) (s : SceneState) :
    ((ns.foldl (fun st p => createNodeObj st p.1 p.2) s)).sceneNodes =
      s.sceneNodes ++ ns.map Prod.fst := by
  induction ns generalizing s with
  | nil => simp
  | cons n rest ih =>
    rw [List.foldl_cons, ih]
    show (s.sceneNodes ++ [n.1]) ++ rest.map Prod.fst = _
    rw [List.append_assoc]
    rfl

theorem foldl_createNodeObj_sceneConns (ns : List (ℕ × NodeObj)) (s : SceneState) :
    ((ns.foldl (fun st p => createNodeObj st p.1 p.2) s)).sceneConns = s.sceneConns := by
  induction ns generalizing s with
  | nil => rfl
  | cons n rest ih => rw [List.foldl_cons, ih]; rfl

theorem filter_idem {α : Type} (p : α → Bool) (l : List α) :
    (l.filter p).filter p = l.filter p := by
  rw [List.filter_filter]
  apply List.filter_congr
  intro a _
  by_cases h : p a <;> simp [h]

theorem filter_self_map_empty {α β : Type} [DecidableEq β] (f : α → β) (l : List α) :
    l.filter (fun a => f a ∉ l.map f) = [] := by
  rw [List.filter_eq_nil_iff]
  intro a ha
  simp only [decide_eq_true_eq, Decidable.not_not]
  exact List.mem_map_of_mem f ha

theorem filter_ne_append_singleton {l : List ℕ} {a : ℕ} (h : a ∉ l) :
    (l ++ [a]).filter (· ≠ a) = l := by
  rw [List.filter_append]
  have h1 : l.filter (· ≠ a) = l :=
    List.filter_eq_self.mpr fun x hx => by
      simp only [ne_eq, decide_not, Bool.not_eq_true', decide_eq_false_iff_not]
      exact fun hxa => h (hxa ▸ hx)
  have h2 : [a].filter (fun x => x ≠ a) = [] := by simp
  rw [h1, h2, List.append_nil]

theorem filter_not_mem_of_disjoint {l : List ℕ} {m : List ℕ} (h : ∀ x ∈ l, x ∉ m) :
    l.filter (· ∉ m) = l :=
  List.filter_eq_self.mpr fun x hx => by simpa using h x hx

theorem heapSetPos_comm (h : List (ℕ × NodeObj)) (a b : ℕ) (pa pb : Point) (hab : a ≠ b) :
    heapSetPos (heapSetPos h a pa) b pb = heapSetPos (heapSetPos h b pb) a pa := by
  unfold heapSetPos
  rw [List.map_map, List.map_map]
  apply List.map_congr_left
  intro q _
  by_cases hqa : q.1 = a
  · have hqb : ¬ q.1 = b := fun hc => hab (hqa.symm.trans hc)
    simp [hqa, hqb, hab, Ne.symm hab]
  · by_cases hqb : q.1 = b
    · simp [hqa, hqb, hab, Ne.symm hab]
    · simp [hqa, hqb]

theorem moveNodesApply_heap (nodes : List ℕ) (ps : List Point) (s : SceneState) :
    (moveNodesApply nodes ps s).heap = zipSetPos nodes ps s.heap := by
  unfold moveNodesApply zipSetPos
  induction nodes.zip ps generalizing s with
  | nil => rfl
  | cons q rest ih =>
    rw [List.foldl_cons, List.foldl_cons, ih]
    rfl

theorem moveNodesApply_sceneNodes (nodes : List ℕ) (ps : List Point) (s : SceneState) :
    (moveNodesApply nodes ps s).sceneNodes = s.sceneNodes := by
  unfold moveNodesApply
  induction nodes.zip ps generalizing s with
  | nil => rfl
  | cons q rest ih => rw [List.foldl_cons, ih]; rfl

theorem moveNodesApply_sceneConns (nodes : List ℕ) (ps : List Point) (s : SceneState) :
    (moveNodesApply nodes ps s).sceneConns = s.sceneConns := by
  unfold moveNodesApply
  induction nodes.zip ps generalizing s with
  | nil => rfl
  | cons q rest ih => rw [List.foldl_cons, ih]; rfl

theorem heapSetPos_zipSetPos_comm (rest : List ℕ) (ps : List Point)
    (X : List (ℕ × NodeObj)) (n : ℕ) (q : Point) (hn : n ∉ rest) :
    heapSetPos (zipSetPos rest ps X) n q = zipSetPos rest ps (heapSetPos X n q) := by
  induction rest generalizing ps X with
  | nil => rfl
  | cons m rest' ih =>
    cases ps with
    | nil => rfl
    | cons pm ps' =>
      have hm : n ≠ m := fun hc => hn (hc ▸ List.mem_cons_self m rest')
      have hn' : n ∉ rest' := fun hc => hn (List.mem_cons_of_mem m hc)
      show heapSetPos (zipSetPos rest' ps' (heapSetPos X m pm)) n q = _
      rw [ih ps' _ hn', heapSetPos_comm _ m n pm q (fun hc => hm hc.symm)]
      rfl

theorem zipSetPos_overwrite (nodes : List ℕ) (ps qs : List Point)
    (h : List (ℕ × NodeObj)) (hnd : nodes.Nodup)
    (hp : ps.length = nodes.length) (hq : qs.length = nodes.length) :
    zipSetPos nodes qs (zipSetPos nodes ps h) = zipSetPos nodes qs h := by
  induction nodes generalizing ps qs h with
  | nil => rfl
  | cons n rest ih =>
    cases ps with
    | nil => exact absurd hp (by simp)
    | cons p ps' =>
      cases qs with
      | nil => exact absurd hq (by simp)
      | cons q qs' =>
        rw [List.nodup_cons] at hnd
        show zipSetPos rest qs' (heapSetPos (zipSetPos rest ps' (heapSetPos h n p)) n q) =
          zipSetPos rest qs' (heapSetPos h n q)
        rw [heapSetPos_zipSetPos_comm rest ps' _ n q hnd.1, heapSetPos_same]
        exact ih ps' qs' (heapSetPos h n q) hnd.2 (by simpa using hp) (by simpa using hq)

theorem assocLookup_of_nodup {α : Type} (h : List (ℕ × α))
    (hnd : (h.map Prod.fst).Nodup) : ∀ p ∈ h, assocLookup h p.1 = some p.2 := by
  induction h with
  | nil => intro p hp; cases hp
  | cons q rest ih =>
    rw [List.map_cons, List.nodup_cons] at hnd
    intro p hp
    rcases List.mem_cons.mp hp with rfl | hp'
    · rw [assocLookup_cons, if_pos rfl]
    · rw [assocLookup_cons,
        if_neg (fun hc => hnd.1 (by rw [hc]; exact List.mem_map_of_mem Prod.fst hp'))]
      exact ih hnd.2 p hp'

theorem assocLookup_capturedOriginalPositions (s : SceneState) (S : List ℕ) (n : ℕ)
    (hn : n ∈ S) : assocLookup (capturedOriginalPositions s S) n = some (posOf s n) := by
  induction S with
  | nil => cases hn
  | cons m rest ih =>
    show assocLookup ((m, posOf s m) :: capturedOriginalPositions s rest) n = _
    rw [assocLookup_cons]
    by_cases hm : m = n
    · rw [if_pos hm, hm]
    · rw [if_neg hm]
      rcases List.mem_cons.mp hn with h | h
      · exact absurd h.symm hm
      · exact ih h

theorem groupNewConns_cid_ge (s : SceneState) (S : List ℕ) (I : List ConnRec)
    (E : List ExternalConnection) (gid b : ℕ) :
    ∀ c ∈ groupNewConns s S I E gid b, b ≤ c.cid := by
  intro c hc
  unfold groupNewConns newGroupConns at hc
  rw [List.mem_map] at hc
  obtain ⟨p, hp, hpc⟩ := hc
  have : c.cid = b + p.1 := by
    rw [← hpc]
    unfold mkGroupConn
    split <;> rfl
  omega

theorem restoreNodeToScene_heap (s : SceneState) (n : ℕ) :
    (restoreNodeToScene s n).heap = s.heap := rfl

theorem restoreNodeToScene_sceneNodes (s : SceneState) (n : ℕ) :
    (restoreNodeToScene s n).sceneNodes = s.sceneNodes ++ [n] := rfl

theorem restoreNodeToScene_sceneConns (s : SceneState) (n : ℕ) :
    (restoreNodeToScene s n).sceneConns = s.sceneConns := rfl

theorem removeNodeFromScene_heap (s : SceneState) (n : ℕ) :
    (removeNodeFromScene s n).heap = s.heap := rfl

theorem removeNodeFromScene_sceneNodes (s : SceneState) (n : ℕ) :
    (removeNodeFromScene s n).sceneNodes = s.sceneNodes.filter (· ≠ n) := rfl

theorem removeNodeFromScene_sceneConns (s : SceneState) (n : ℕ) :
    (removeNodeFromScene s n).sceneConns = s.sceneConns := rfl

theorem scenePos_heap (s : SceneState) (n : ℕ) (p : Point) :
    (scenePos s n p).heap = heapSetPos s.heap n p := rfl

theorem scenePos_sceneNodes (s : SceneState) (n : ℕ) (p : Point) :
    (scenePos s n p).sceneNodes = s.sceneNodes := rfl

theorem scenePos_sceneConns (s : SceneState) (n : ℕ) (p : Point) :
    (scenePos s n p).sceneConns = s.sceneConns := rfl

theorem restoreConnectionToScene_heap (s : SceneState) (c : ConnRec) :
    (restoreConnectionToScene s c).heap = s.heap := rfl

theorem restoreConnectionToScene_sceneNodes (s : SceneState) (c : ConnRec) :
    (restoreConnectionToScene s c).sceneNodes = s.sceneNodes := rfl

theorem restoreConnectionToScene_sceneConns (s : SceneState) (c : ConnRec) :
    (restoreConnectionToScene s c).sceneConns = s.sceneConns ++ [c] := rfl

theorem removeConnectionFromScene_heap (s : SceneState) (c : ConnRec) :
    (removeConnectionFromScene s c).heap = s.heap := rfl

theorem groupRedo1_heap (s : SceneState) (S : List ℕ) (I : List ConnRec)
    (E : List ExternalConnection) (gid b : ℕ) :
    (groupRedo1 s S I E gid b).heap = s.heap ++ [(gid, groupObjOf s S I E)] := by
  simp only [groupRedo1]
  rw [foldl_restoreConn_heap, restoreNodeToScene_heap, foldl_removeNode_heap,
    foldl_removeConn_heap, foldl_removeConn_heap]

theorem groupRedo1_sceneNodes (s : SceneState) (S : List ℕ) (I : List ConnRec)
    (E : List ExternalConnection) (gid b : ℕ) :
    (groupRedo1 s S I E gid b).sceneNodes = s.sceneNodes.filter (· ∉ S) ++ [gid] := by
  simp only [groupRedo1]
  rw [foldl_restoreConn_sceneNodes, restoreNodeToScene_sceneNodes, foldl_removeNode_sceneNodes,
    foldl_removeConn_sceneNodes, foldl_removeConn_sceneNodes]

theorem groupRedo1_sceneConns (s : SceneState) (S : List ℕ) (I : List ConnRec)
    (E : List ExternalConnection) (gid b : ℕ) :
    (groupRedo1 s S I E gid b).sceneConns =
      (s.sceneConns.filter fun d =>
          d.cid ∉ (E.map (fun e => e.originalConnection)).map ConnRec.cid).filter
        (fun d => d.cid ∉ I.map ConnRec.cid) ++ groupNewConns s S I E gid b := by
  simp only [groupRedo1]
  rw [foldl_restoreConn_sceneConns, restoreNodeToScene_sceneConns, foldl_removeNode_sceneConns,
    foldl_removeConn_sceneConns, foldl_removeConn_sceneConns]

theorem groupUndo_heap (S : List ℕ) (I : List ConnRec) (E : List ExternalConnection)
    (origPos : List (ℕ × Point)) (gid : ℕ) (nc : List ConnRec) (t : SceneState) :
    (groupUndo S I E origPos gid nc t).heap =
      multiSetPos S (fun n => (assocLookup origPos n).getD 0) t.heap := by
  simp only [groupUndo]
  rw [foldl_restoreConn_heap, foldl_restoreConn_heap, restoreNodesAt_heap,
    removeNodeFromScene_heap, foldl_removeConn_heap]

theorem groupUndo_sceneNodes (S : List ℕ) (I : List ConnRec) (E : List ExternalConnection)
    (origPos : List (ℕ × Point)) (gid : ℕ) (nc : List ConnRec) (t : SceneState) :
    (groupUndo S I E origPos gid nc t).sceneNodes =
      t.sceneNodes.filter (· ≠ gid) ++ S := by
  simp only [groupUndo]
  rw [foldl_restoreConn_sceneNodes, foldl_restoreConn_sceneNodes, restoreNodesAt_sceneNodes,
    removeNodeFromScene_sceneNodes, foldl_removeConn_sceneNodes]

theorem groupUndo_sceneConns (S : List ℕ) (I : List ConnRec) (E : List ExternalConnection)
    (origPos : List (ℕ × Point)) (gid : ℕ) (nc : List ConnRec) (t : SceneState) :
    (groupUndo S I E origPos gid nc t).sceneConns =
      (t.sceneConns.filter fun d => d.cid ∉ nc.map ConnRec.cid) ++ I ++
        E.map (fun e => e.originalConnection) := by
  simp only [groupUndo]
  rw [foldl_restoreConn_sceneConns, foldl_restoreConn_sceneConns, restoreNodesAt_sceneConns,
    removeNodeFromScene_sceneConns, foldl_removeConn_sceneConns]

theorem groupRedo2_heap (S : List ℕ) (I : List ConnRec) (E : List ExternalConnection)
    (gid : ℕ) (nc : List ConnRec) (t : SceneState) :
    (groupRedo2 S I E gid nc t).heap = t.heap := by
  simp only [groupRedo2]
  rw [foldl_restoreConn_heap, restoreNodeToScene_heap, foldl_removeNode_heap,
    foldl_removeConn_heap, foldl_removeConn_heap]

theorem groupRedo2_sceneNodes (S : List ℕ) (I : List ConnRec) (E : List ExternalConnection)
    (gid : ℕ) (nc : List ConnRec) (t : SceneState) :
    (groupRedo2 S I E gid nc t).sceneNodes = t.sceneNodes.filter (· ∉ S) ++ [gid] := by
  simp only [groupRedo2]
  rw [foldl_restoreConn_sceneNodes, restoreNodeToScene_sceneNodes, foldl_removeNode_sceneNodes,
    foldl_removeConn_sceneNodes, foldl_removeConn_sceneNodes]

theorem groupRedo2_sceneConns (S : List ℕ) (I : List ConnRec) (E : List ExternalConnection)
    (gid : ℕ) (nc : List ConnRec) (t : SceneState) :
    (groupRedo2 S I E gid nc t).sceneConns =
      (t.sceneConns.filter fun d =>
          d.cid ∉ (E.map (fun e => e.originalConnection)).map ConnRec.cid).filter
        (fun d => d.cid ∉ I.map ConnRec.cid) ++ nc := by
  simp only [groupRedo2]
  rw [foldl_restoreConn_sceneConns, restoreNodeToScene_sceneConns, foldl_removeNode_sceneConns,
    foldl_removeConn_sceneConns, foldl_removeConn_sceneConns]

theorem ungroupRedo_heap (S : List ℕ) (I : List ConnRec) (E : List ExternalConnection)
    (origPos : List (ℕ × Point)) (gid : ℕ) (gconns : List ConnRec) (t : SceneState) :
    (ungroupRedo S I E origPos gid gconns t).heap =
      multiSetPos S
        (fun n => (assocLookup origPos n).getD 0 + (posOf t gid - originalCenterOf origPos))
        t.heap := by
  simp only [ungroupRedo]
  rw [foldl_restoreConn_heap, foldl_restoreConn_heap, restoreNodesAt_heap]
  have hpos : posOf (removeNodeFromScene (gconns.foldl removeConnectionFromScene t) gid) gid =
      posOf t gid := by
    unfold posOf
    rw [removeNodeFromScene_heap, foldl_removeConn_heap]
  rw [hpos, removeNodeFromScene_heap, foldl_removeConn_heap]

theorem ungroupRedo_sceneNodes (S : List ℕ) (I : List ConnRec) (E : List ExternalConnection)
    (origPos : List (ℕ × Point)) (gid : ℕ) (gconns : List ConnRec) (t : SceneState) :
    (ungroupRedo S I E origPos gid gconns t).sceneNodes =
      t.sceneNodes.filter (· ≠ gid) ++ S := by
  simp only [ungroupRedo]
  rw [foldl_restoreConn_sceneNodes, foldl_restoreConn_sceneNodes, restoreNodesAt_sceneNodes,
    removeNodeFromScene_sceneNodes, foldl_removeConn_sceneNodes]

theorem ungroupRedo_sceneConns (S : List ℕ) (I : List ConnRec) (E : List ExternalConnection)
    (origPos : List (ℕ × Point)) (gid : ℕ) (gconns : List ConnRec) (t : SceneState) :
    (ungroupRedo S I E origPos gid gconns t).sceneConns =
      (t.sceneConns.filter fun d => d.cid ∉ gconns.map ConnRec.cid) ++ I ++
        E.map (fun e => e.originalConnection) := by
  simp only [ungroupRedo]
  rw [foldl_restoreConn_sceneConns, foldl_restoreConn_sceneConns, restoreNodesAt_sceneConns,
    removeNodeFromScene_sceneConns, foldl_removeConn_sceneConns]

theorem ungroupUndo_heap (S : List ℕ) (I : List ConnRec) (E : List ExternalConnection)
    (gid : ℕ) (gconns : List ConnRec) (t : SceneState) :
    (ungroupUndo S I E gid gconns t).heap = t.heap := by
  simp only [ungroupUndo]
  rw [foldl_restoreConn_heap, restoreNodeToScene_heap, foldl_removeNode_heap,
    foldl_removeConn_heap, foldl_removeConn_heap]

theorem ungroupUndo_sceneNodes (S : List ℕ) (I : List ConnRec) (E : List ExternalConnection)
    (gid : ℕ) (gconns : List ConnRec) (t : SceneState) :
    (ungroupUndo S I E gid gconns t).sceneNodes = t.sceneNodes.filter (· ∉ S) ++ [gid] := by
  simp only [ungroupUndo]
  rw [foldl_restoreConn_sceneNodes, restoreNodeToScene_sceneNodes, foldl_removeNode_sceneNodes,
    foldl_removeConn_sceneNodes, foldl_removeConn_sceneNodes]

theorem ungroupUndo_sceneConns (S : List ℕ) (I : List ConnRec) (E : List ExternalConnection)
    (gid : ℕ) (gconns : List ConnRec) (t : SceneState) :
    (ungroupUndo S I E gid gconns t).sceneConns =
      (t.sceneConns.filter fun d =>
          d.cid ∉ (E.map (fun e => e.originalConnection)).map ConnRec.cid).filter
        (fun d => d.cid ∉ I.map ConnRec.cid) ++ gconns := by
  simp only [ungroupUndo]
  rw [foldl_restoreConn_sceneConns, restoreNodeToScene_sceneConns, foldl_removeNode_sceneConns,
    foldl_removeConn_sceneConns, foldl_removeConn_sceneConns]

theorem removeConnectionFromScene_sceneConns (s : SceneState) (c : ConnRec) :
    (removeConnectionFromScene s c).sceneConns =
      s.sceneConns.filter (fun d => d.cid ≠ c.cid) := rfl

theorem removeConnectionFromScene_sceneNodes (s : SceneState) (c : ConnRec) :
    (removeConnectionFromScene s c).sceneNodes = s.sceneNodes := rfl

theorem graphState_eq (s t : SceneState) (h1 : s.heap = t.heap)
    (h2 : s.sceneNodes = t.sceneNodes) (h3 : s.sceneConns = t.sceneConns) :
    graphState s = graphState t := by
  unfold graphState
  rw [h1, h2, h3]

theorem filter_not_mem_self (l : List ℕ) : l.filter (fun x => x ∉ l) = [] := by
  rw [List.filter_eq_nil_iff]
  intro a ha
  simp [ha]

/-- Round trip of `AddNodeCommand`: after the first `redo` (which creates the
node), `undo` removes it from the scene and `redo` restores it; the graph
state after `undo(); redo()` equals the state after the original `redo`. -/
theorem addNodeCommand_undo_redo (s : SceneState) (nid : ℕ) (obj : NodeObj)
    (h : nid ∉ s.sceneNodes) :
    graphState (restoreNodeToScene (removeNodeFromScene (createNodeObj s nid obj) nid) nid) =
      graphState (createNodeObj s nid obj) := by
  apply graphState_eq
  · rfl
  · rw [restoreNodeToScene_sceneNodes, removeNodeFromScene_sceneNodes]
    have hcn : (createNodeObj s nid obj).sceneNodes = s.sceneNodes ++ [nid] := rfl
    rw [hcn, filter_ne_append_singleton h]
  · rfl

/-- Round trip of `AddConnectionCommand` (first `redo` = `createConnection`,
whose graph effect equals `restoreConnectionToScene`). -/
theorem addConnectionCommand_undo_redo (s : SceneState) (c : ConnRec)
    (h : ∀ d ∈ s.sceneConns, d.cid ≠ c.cid) :
    graphState (restoreConnectionToScene
        (removeConnectionFromScene (restoreConnectionToScene s c) c) c) =
      graphState (restoreConnectionToScene s c) := by
  apply graphState_eq
  · rfl
  · rfl
  · simp only [restoreConnectionToScene_sceneConns, removeConnectionFromScene_sceneConns]
    rw [List.filter_append]
    have h1 : s.sceneConns.filter (fun d => d.cid ≠ c.cid) = s.sceneConns :=
      List.filter_eq_self.mpr fun d hd => by simpa using h d hd
    have h2 : [c].filter (fun d => d.cid ≠ c.cid) = [] := by simp
    rw [h1, h2, List.append_nil]

/-- Round trip of `DeleteCommand`; no side conditions are needed, the second
`redo` filters out exactly what `undo` re-appended. -/
theorem deleteCommand_undo_redo (s : SceneState) (ns : List ℕ) (cs : List ConnRec) :
    graphState (deleteRedo ns cs (deleteUndo ns cs (deleteRedo ns cs s))) =
      graphState (deleteRedo ns cs s) := by
  apply graphState_eq
  · simp only [deleteRedo, deleteUndo]
    rw [foldl_removeNode_heap, foldl_removeConn_heap, foldl_restoreConn_heap,
      foldl_restoreNode_heap, foldl_removeNode_heap, foldl_removeConn_heap]
  · simp only [deleteRedo, deleteUndo]
    rw [foldl_removeNode_sceneNodes, foldl_removeConn_sceneNodes, foldl_restoreConn_sceneNodes,
      foldl_restoreNode_sceneNodes, foldl_removeNode_sceneNodes, foldl_removeConn_sceneNodes,
      List.filter_append, filter_idem, filter_not_mem_self, List.append_nil]
  · simp only [deleteRedo, deleteUndo]
    rw [foldl_removeNode_sceneConns, foldl_removeConn_sceneConns, foldl_restoreConn_sceneConns,
      foldl_restoreNode_sceneConns, foldl_removeNode_sceneConns, foldl_removeConn_sceneConns,
      List.filter_append, filter_idem, filter_self_map_empty, List.append_nil]

/-- Round trip of `MoveNodeCommand`: `undo` restores the old position, `redo`
re-applies the new one; positions are overwritten in place. -/
theorem moveNodeCommand_undo_redo (s : SceneState) (nid : ℕ) (oldP newP : Point) :
    graphState (scenePos (scenePos (scenePos s nid newP) nid oldP) nid newP) =
      graphState (scenePos s nid newP) := by
  apply graphState_eq
  · simp only [scenePos_heap]
    rw [heapSetPos_same, heapSetPos_same]
  · rfl
  · rfl

/-- Round trip of `MoveNodesCommand` (the multi-select move). -/
theorem moveNodesCommand_undo_redo (s : SceneState) (nodes : List ℕ)
    (olds news : List Point) (hnd : nodes.Nodup) (ho : olds.length = nodes.length)
    (hn : news.length = nodes.length) :
    graphState (moveNodesApply nodes news
        (moveNodesApply nodes olds (moveNodesApply nodes news s))) =
      graphState (moveNodesApply nodes news s) := by
  apply graphState_eq
  · simp only [moveNodesApply_heap]
    rw [zipSetPos_overwrite nodes olds news _ hnd ho hn,
      zipSetPos_overwrite nodes news news _ hnd hn hn]
  · simp only [moveNodesApply_sceneNodes]
  · simp only [moveNodesApply_sceneConns]

/-- Round trip of `PasteCommand`: the first `redo` creates fresh nodes and
connections, `undo` removes them, the second `redo` re-inserts them. -/
theorem pasteCommand_undo_redo (s : SceneState) (ns : List (ℕ × NodeObj))
    (cs : List ConnRec) (hn : ∀ p ∈ ns, p.1 ∉ s.sceneNodes)
    (hc : ∀ d ∈ s.sceneConns, d.cid ∉ cs.map ConnRec.cid) :
    graphState (pasteRedo2 ns cs (pasteUndo ns cs (pasteRedo1 ns cs s))) =
      graphState (pasteRedo1 ns cs s) := by
  apply graphState_eq
  · simp only [pasteRedo1, pasteRedo2, pasteUndo]
    rw [foldl_restoreConn_heap, foldl_restoreNode_heap, foldl_removeNode_heap,
      foldl_removeConn_heap, foldl_restoreConn_heap, foldl_createNodeObj_heap]
  · simp only [pasteRedo1, pasteRedo2, pasteUndo]
    rw [foldl_restoreConn_sceneNodes, foldl_restoreNode_sceneNodes,
      foldl_removeNode_sceneNodes, foldl_removeConn_sceneNodes, foldl_restoreConn_sceneNodes,
      foldl_createNodeObj_sceneNodes, List.filter_append, filter_not_mem_self,
      List.append_nil]
    have hd : s.sceneNodes.filter (· ∉ ns.map Prod.fst) = s.sceneNodes := by
      apply filter_not_mem_of_disjoint
      intro x hx hmem
      rw [List.mem_map] at hmem
      obtain ⟨p, hp, hpx⟩ := hmem
      exact hn p hp (hpx ▸ hx)
    rw [hd]
  · simp only [pasteRedo1, pasteRedo2, pasteUndo]
    rw [foldl_restoreConn_sceneConns, foldl_restoreNode_sceneConns,
      foldl_removeNode_sceneConns, foldl_removeConn_sceneConns, foldl_restoreConn_sceneConns,
      foldl_createNodeObj_sceneConns, List.filter_append, filter_self_map_empty,
      List.append_nil]
    have hd : s.sceneConns.filter (fun d => d.cid ∉ cs.map ConnRec.cid) = s.sceneConns :=
      List.filter_eq_self.mpr fun d hd => by simpa using hc d hd
    rw [hd]

theorem not_mem_filter_ne_self (a : ℕ) (l : List ℕ) : a ∉ l.filter (· ≠ a) := by
  intro h
  simpa using (List.mem_filter.mp h).2

theorem posOf_heap_eq {s t : SceneState} (h : s.heap = t.heap) (n : ℕ) :
    posOf s n = posOf t n := by
  unfold posOf
  rw [h]

theorem groupCommand_undo_redo (s : SceneState) (S : List ℕ) (I : List ConnRec)
    (E : List ExternalConnection) (gid b : ℕ)
    (hgid_nodes : gid ∉ s.sceneNodes) (hgid_S : gid ∉ S)
    (hheap_nd : (s.heap.map Prod.fst).Nodup)
    (hcid : ∀ d ∈ s.sceneConns, d.cid < b)
    (hIE : ∀ c ∈ I, c.cid ∉ (E.map fun e => e.originalConnection).map ConnRec.cid) :
    graphState (groupRedo2 S I E gid (groupNewConns s S I E gid b)
        (groupUndo S I E (capturedOriginalPositions s S) gid (groupNewConns s S I E gid b)
          (groupRedo1 s S I E gid b))) =
      graphState (groupRedo1 s S I E gid b) := by
  apply graphState_eq
  · rw [groupRedo2_heap, groupUndo_heap, groupRedo1_heap]
    apply multiSetPos_id
    intro p hp hpS
    rcases List.mem_append.mp hp with hmem | hmem
    · rw [assocLookup_capturedOriginalPositions s S p.1 hpS]
      have := assocLookup_of_nodup s.heap hheap_nd p hmem
      unfold posOf
      rw [this]
      rfl
    · rw [List.mem_singleton] at hmem
      rw [hmem] at hpS
      exact absurd hpS hgid_S
  · rw [groupRedo2_sceneNodes, groupUndo_sceneNodes, groupRedo1_sceneNodes]
    have h1 : gid ∉ s.sceneNodes.filter (· ∉ S) := fun h =>
      hgid_nodes (List.mem_of_mem_filter h)
    rw [filter_ne_append_singleton h1, List.filter_append, filter_idem,
      filter_not_mem_self, List.append_nil]
  · rw [groupRedo2_sceneConns, groupUndo_sceneConns, groupRedo1_sceneConns]
    set nc := groupNewConns s S I E gid b with hnc
    set pE : ConnRec → Bool :=
      (fun d => d.cid ∉ (E.map fun e => e.originalConnection).map ConnRec.cid) with hpE
    set pI : ConnRec → Bool := (fun d => d.cid ∉ I.map ConnRec.cid) with hpI
    set A : List ConnRec := (s.sceneConns.filter pE).filter pI with hA
    have hAmem : ∀ d ∈ A, d ∈ s.sceneConns := fun d hd =>
      List.mem_of_mem_filter (List.mem_of_mem_filter hd)
    have h1 : (A ++ nc).filter (fun d => d.cid ∉ nc.map ConnRec.cid) = A := by
      rw [List.filter_append, filter_self_map_empty, List.append_nil]
      apply List.filter_eq_self.mpr
      intro d hd
      simp only [decide_eq_true_eq]
      intro hmem
      rw [List.mem_map] at hmem
      obtain ⟨c, hc, hcd⟩ := hmem
      have hge := groupNewConns_cid_ge s S I E gid b c hc
      have hlt := hcid d (hAmem d hd)
      omega
    rw [h1]
    have h2 : A.filter pE = A := by
      apply List.filter_eq_self.mpr
      intro d hd
      exact List.of_mem_filter (List.mem_of_mem_filter hd)
    have h3 : I.filter pE = I := by
      apply List.filter_eq_self.mpr
      intro d hd
      simpa [hpE] using hIE d hd
    have h4 : (E.map fun e => e.originalConnection).filter pE = [] :=
      filter_self_map_empty ConnRec.cid (E.map fun e => e.originalConnection)
    have h5 : A.filter pI = A := by
      apply List.filter_eq_self.mpr
      intro d hd
      exact List.of_mem_filter hd
    have h6 : I.filter pI = [] := filter_self_map_empty ConnRec.cid I
    simp only [List.filter_append]
    rw [h2, h3, h4, h5, h6]
    simp

/-- Round trip of `UngroupNodesCommand`: after the first `redo` dissolved the
group, `undo(); redo()` reproduces the graph state; the recomputed `offset`
is unchanged because neither `undo` nor `redo` moves the group object. -/
theorem ungroupCommand_undo_redo (s : SceneState) (S : List ℕ) (I : List ConnRec)
    (E : List ExternalConnection) (origPos : List (ℕ × Point)) (gid : ℕ)
    (gconns : List ConnRec)
    (hS_scene : ∀ n ∈ S, n ∉ s.sceneNodes) (hgid_S : gid ∉ S)
    (hsc_I : ∀ d ∈ s.sceneConns, d.cid ∉ I.map ConnRec.cid)
    (hsc_E : ∀ d ∈ s.sceneConns,
      d.cid ∉ (E.map fun e => e.originalConnection).map ConnRec.cid)
    (hIE : ∀ c ∈ I, c.cid ∉ (E.map fun e => e.originalConnection).map ConnRec.cid) :
    graphState (ungroupRedo S I E origPos gid gconns
        (ungroupUndo S I E gid gconns (ungroupRedo S I E origPos gid gconns s))) =
      graphState (ungroupRedo S I E origPos gid gconns s) := by
  have hheap2 : (ungroupUndo S I E gid gconns (ungroupRedo S I E origPos gid gconns s)).heap =
      multiSetPos S
        (fun n => (assocLookup origPos n).getD 0 + (posOf s gid - originalCenterOf origPos))
        s.heap := by
    rw [ungroupUndo_heap, ungroupRedo_heap]
  have hpos2 : posOf (ungroupUndo S I E gid gconns (ungroupRedo S I E origPos gid gconns s))
      gid = posOf s gid := by
    unfold posOf
    rw [hheap2, assocLookup_multiSetPos, if_neg hgid_S]
  apply graphState_eq
  · rw [ungroupRedo_heap, ungroupRedo_heap, hpos2, hheap2]
    apply multiSetPos_id
    intro p hp hpS
    exact mem_multiSetPos_pos S _ s.heap p hp hpS
  · rw [ungroupRedo_sceneNodes, ungroupUndo_sceneNodes, ungroupRedo_sceneNodes]
    have h1 : (s.sceneNodes.filter (· ≠ gid) ++ S).filter (· ∉ S) =
        s.sceneNodes.filter (· ≠ gid) := by
      rw [List.filter_append, filter_not_mem_self, List.append_nil]
      apply filter_not_mem_of_disjoint
      intro x hx hxS
      exact hS_scene x hxS (List.mem_of_mem_filter hx)
    rw [h1, filter_ne_append_singleton (not_mem_filter_ne_self gid s.sceneNodes)]
  · rw [ungroupRedo_sceneConns, ungroupUndo_sceneConns, ungroupRedo_sceneConns]
    set pG : ConnRec → Bool := (fun d => d.cid ∉ gconns.map ConnRec.cid) with hpG
    set pE : ConnRec → Bool :=
      (fun d => d.cid ∉ (E.map fun e => e.originalConnection).map ConnRec.cid) with hpE
    set pI : ConnRec → Bool := (fun d => d.cid ∉ I.map ConnRec.cid) with hpI
    set B : List ConnRec := s.sceneConns.filter pG with hB
    have hBmem : ∀ d ∈ B, d ∈ s.sceneConns := fun d hd => List.mem_of_mem_filter hd
    have h2 : B.filter pE = B := by
      apply List.filter_eq_self.mpr
      intro d hd
      simpa [hpE] using hsc_E d (hBmem d hd)
    have h3 : I.filter pE = I := by
      apply List.filter_eq_self.mpr
      intro d hd
      simpa [hpE] using hIE d hd
    have h4 : (E.map fun e => e.originalConnection).filter pE = [] :=
      filter_self_map_empty ConnRec.cid (E.map fun e => e.originalConnection)
    have h5 : B.filter pI = B := by
      apply List.filter_eq_self.mpr
      intro d hd
      simpa [hpI] using hsc_I d (hBmem d hd)
    have h6 : I.filter pI = [] := filter_self_map_empty ConnRec.cid I
    have h7 : B.filter pG = B := by
      rw [hB, filter_idem]
    have h8 : gconns.filter pG = [] := filter_self_map_empty ConnRec.cid gconns
    simp only [List.filter_append]
    rw [h2, h3, h4, h5, h6]
    simp only [List.filter_nil, List.append_nil]
    rw [h7, h8]
    simp

/-- C5: for every command type of `UndoCommands.cpp` — add node, add
connection, delete, move (single and multi), paste, group, ungroup — and
every reachable graph state, `undo()` followed by `redo()` restores exactly
the graph state (node objects and positions, scene node membership,
connection set; the group's stored internal structure is command data that
neither `undo` nor `redo` mutates) that held immediately after the original
execute/`redo`.  The hypotheses are reachable-state facts: fresh identities
for created objects, unique object identities, and disjointness of the
stored connection lists. -/
theorem C5_undo_redo_symmetry :
    (∀ (s : SceneState) (nid : ℕ) (obj : NodeObj), nid ∉ s.sceneNodes →
      graphState (restoreNodeToScene (removeNodeFromScene (createNodeObj s nid obj) nid) nid) =
        graphState (createNodeObj s nid obj)) ∧
    (∀ (s : SceneState) (c : ConnRec), (∀ d ∈ s.sceneConns, d.cid ≠ c.cid) →
      graphState (restoreConnectionToScene
          (removeConnectionFromScene (restoreConnectionToScene s c) c) c) =
        graphState (restoreConnectionToScene s c)) ∧
    (∀ (s : SceneState) (ns : List ℕ) (cs : List ConnRec),
      graphState (deleteRedo ns cs (deleteUndo ns cs (deleteRedo ns cs s))) =
        graphState (deleteRedo ns cs s)) ∧
    (∀ (s : SceneState) (nid : ℕ) (oldP newP : Point),
      graphState (scenePos (scenePos (scenePos s nid newP) nid oldP) nid newP) =
        graphState (scenePos s nid newP)) ∧
    (∀ (s : SceneState) (nodes : List ℕ) (olds news : List Point), nodes.Nodup →
      olds.length = nodes.length → news.length = nodes.length →
      graphState (moveNodesApply nodes news
          (moveNodesApply nodes olds (moveNodesApply nodes news s))) =
        graphState (moveNodesApply nodes news s)) ∧
    (∀ (s : SceneState) (ns : List (ℕ × NodeObj)) (cs : List ConnRec),
      (∀ p ∈ ns, p.1 ∉ s.sceneNodes) → (∀ d ∈ s.sceneConns, d.cid ∉ cs.map ConnRec.cid) →
      graphState (pasteRedo2 ns cs (pasteUndo ns cs (pasteRedo1 ns cs s))) =
        graphState (pasteRedo1 ns cs s)) ∧
    (∀ (s : SceneState) (S : List ℕ) (I : List ConnRec) (E : List ExternalConnection)
        (gid b : ℕ), gid ∉ s.sceneNodes → gid ∉ S → (s.heap.map Prod.fst).Nodup →
      (∀ d ∈ s.sceneConns, d.cid < b) →
      (∀ c ∈ I, c.cid ∉ (E.map fun e => e.originalConnection).map ConnRec.cid) →
      graphState (groupRedo2 S I E gid (groupNewConns s S I E gid b)
          (groupUndo S I E (capturedOriginalPositions s S) gid (groupNewConns s S I E gid b)
            (groupRedo1 s S I E gid b))) =
        graphState (groupRedo1 s S I E gid b)) ∧
    (∀ (s : SceneState) (S : List ℕ) (I : List ConnRec) (E : List ExternalConnection)
        (origPos : List (ℕ × Point)) (gid : ℕ) (gconns : List ConnRec),
      (∀ n ∈ S, n ∉ s.sceneNodes) → gid ∉ S →
      (∀ d ∈ s.sceneConns, d.cid ∉ I.map ConnRec.cid) →
      (∀ d ∈ s.sceneConns,
        d.cid ∉ (E.map fun e => e.originalConnection).map ConnRec.cid) →
      (∀ c ∈ I, c.cid ∉ (E.map fun e => e.originalConnection).map ConnRec.cid) →
      graphState (ungroupRedo S I E origPos gid gconns
          (ungroupUndo S I E gid gconns (ungroupRedo S I E origPos gid gconns s))) =
        graphState (ungroupRedo S I E origPos gid gconns s)) :=
  ⟨addNodeCommand_undo_redo, addConnectionCommand_undo_redo, deleteCommand_undo_redo,
   moveNodeCommand_undo_redo, moveNodesCommand_undo_redo, pasteCommand_undo_redo,
   groupCommand_undo_redo, ungroupCommand_undo_redo⟩

/-- Witness for `C5_undo_redo_symmetry` at concrete scenes. -/
theorem C5_undo_redo_symmetry_witness :
    (graphState (restoreNodeToScene (removeNodeFromScene (createNodeObj sEmpty 7 objW) 7) 7) =
      graphState (createNodeObj sEmpty 7 objW)) ∧
    (graphState (restoreConnectionToScene
        (removeConnectionFromScene (restoreConnectionToScene sTwoNodes ⟨3, 0, 0, 1, 0, 0⟩)
          ⟨3, 0, 0, 1, 0, 0⟩) ⟨3, 0, 0, 1, 0, 0⟩) =
      graphState (restoreConnectionToScene sTwoNodes ⟨3, 0, 0, 1, 0, 0⟩)) ∧
    (graphState (moveNodesApply [0, 1] [⟨1, 1⟩, ⟨2, 2⟩]
        (moveNodesApply [0, 1] [⟨0, 0⟩, ⟨0, 0⟩]
          (moveNodesApply [0, 1] [⟨1, 1⟩, ⟨2, 2⟩] sTwoNodes))) =
      graphState (moveNodesApply [0, 1] [⟨1, 1⟩, ⟨2, 2⟩] sTwoNodes)) ∧
    (graphState (pasteRedo2 [(7, objW)] [] (pasteUndo [(7, objW)] []
        (pasteRedo1 [(7, objW)] [] sTwoNodes))) =
      graphState (pasteRedo1 [(7, objW)] [] sTwoNodes)) ∧
    (graphState (groupRedo2 [0, 1] [] [] 5 (groupNewConns sTwoNodes [0, 1] [] [] 5 10)
        (groupUndo [0, 1] [] [] (capturedOriginalPositions sTwoNodes [0, 1]) 5
          (groupNewConns sTwoNodes [0, 1] [] [] 5 10)
          (groupRedo1 sTwoNodes [0, 1] [] [] 5 10))) =
      graphState (groupRedo1 sTwoNodes [0, 1] [] [] 5 10)) ∧
    (graphState (ungroupRedo [0, 1] [] [] [(0, ⟨0, 0⟩), (1, ⟨2, 0⟩)] 5 []
        (ungroupUndo [0, 1] [] [] 5 []
          (ungroupRedo [0, 1] [] [] [(0, ⟨0, 0⟩), (1, ⟨2, 0⟩)] 5 [] sOneGroup))) =
      graphState (ungroupRedo [0, 1] [] [] [(0, ⟨0, 0⟩), (1, ⟨2, 0⟩)] 5 [] sOneGroup)) :=
  ⟨C5_undo_redo_symmetry.1 sEmpty 7 objW (by decide),
   C5_undo_redo_symmetry.2.1 sTwoNodes ⟨3, 0, 0, 1, 0, 0⟩ (by decide),
   C5_undo_redo_symmetry.2.2.2.2.1 sTwoNodes [0, 1] [⟨0, 0⟩, ⟨0, 0⟩] [⟨1, 1⟩, ⟨2, 2⟩]
     (by decide) (by decide) (by decide),
   C5_undo_redo_symmetry.2.2.2.2.2.1 sTwoNodes [(7, objW)] [] (by decide) (by decide),
   C5_undo_redo_symmetry.2.2.2.2.2.2.1 sTwoNodes [0, 1] [] [] 5 10 (by decide) (by decide)
     (by decide) (by decide) (by decide),
   C5_undo_redo_symmetry.2.2.2.2.2.2.2 sOneGroup [0, 1] [] [] [(0, ⟨0, 0⟩), (1, ⟨2, 0⟩)] 5 []
     (by decide) (by decide) (by decide) (by decide) (by decide)⟩

theorem scenePos_connLists (s : SceneState) (n : ℕ) (p : Point) :
    (scenePos s n p).connLists = s.connLists := rfl

theorem restoreNodeToScene_connLists (s : SceneState) (n : ℕ) :
    (restoreNodeToScene s n).connLists = s.connLists := rfl

theorem assocLookup_eq_none {α : Type} (l : List (ℕ × α)) (k : ℕ)
    (h : k ∉ l.map Prod.fst) : assocLookup l k = none := by
  induction l with
  | nil => rfl
  | cons p rest ih =>
    rw [List.map_cons, List.mem_cons] at h
    push_neg at h
    rw [assocLookup_cons, if_neg (fun hc => h.1 hc.symm)]
    exact ih h.2

theorem assocLookup_regConn (L : List (ℕ × List ℕ)) (a cid k : ℕ) :
    assocLookup (regConn L a cid) k =
      if k = a then (assocLookup L k).map (· ++ [cid]) else assocLookup L k := by
  induction L with
  | nil =>
    by_cases hk : k = a <;> simp [regConn, assocLookup, hk]
  | cons p rest ih =>
    show assocLookup ((if p.1 = a then (p.1, p.2 ++ [cid]) else p) :: regConn rest a cid) k = _
    by_cases hp : p.1 = a
    · by_cases hk : p.1 = k
      · have hka : k = a := hk ▸ hp
        simp [assocLookup_cons, hp, hk, hka]
      · have hnk : ¬ a = k := hp ▸ hk
        simp [assocLookup_cons, hp, hk, ih, hnk]
    · by_cases hk : p.1 = k
      · have hkn : ¬ k = a := fun hcon => hp (hk.trans hcon)
        simp [assocLookup_cons, hp, hk, hkn]
      · simp [assocLookup_cons, hp, hk, ih]

theorem assocLookup_deregConn (L : List (ℕ × List ℕ)) (a cid k : ℕ) :
    assocLookup (deregConn L a cid) k =
      if k = a then (assocLookup L k).map (·.filter (· ≠ cid)) else assocLookup L k := by
  induction L with
  | nil =>
    by_cases hk : k = a <;> simp [deregConn, assocLookup, hk]
  | cons p rest ih =>
    show assocLookup
      ((if p.1 = a then (p.1, p.2.filter (· ≠ cid)) else p) :: deregConn rest a cid) k = _
    by_cases hp : p.1 = a
    · by_cases hk : p.1 = k
      · have hka : k = a := hk ▸ hp
        simp [assocLookup_cons, hp, hk, hka]
      · have hnk : ¬ a = k := hp ▸ hk
        simp [assocLookup_cons, hp, hk, ih, hnk]
    · by_cases hk : p.1 = k
      · have hkn : ¬ k = a := fun hcon => hp (hk.trans hcon)
        simp [assocLookup_cons, hp, hk, hkn]
      · simp [assocLookup_cons, hp, hk, ih]

theorem assocLookup_removeConn_connLists (t : SceneState) (c : ConnRec) (g : ℕ) :
    assocLookup (removeConnectionFromScene t c).connLists g =
      if g = c.toNode ∨ g = c.fromNode then
        (assocLookup t.connLists g).map (·.filter (· ≠ c.cid))
      else assocLookup t.connLists g := by
  show assocLookup (deregConn (deregConn t.connLists c.fromNode c.cid) c.toNode c.cid) g = _
  rw [assocLookup_deregConn, assocLookup_deregConn]
  by_cases h1 : g = c.toNode
  · by_cases h2 : g = c.fromNode
    · rw [if_pos h1, if_pos h2, if_pos (Or.inl h1), Option.map_map]
      cases assocLookup t.connLists g with
      | none => rfl
      | some l =>
        show some ((l.filter (· ≠ c.cid)).filter (· ≠ c.cid)) = some (l.filter (· ≠ c.cid))
        exact congrArg some (filter_idem _ l)
    · rw [if_pos h1, if_neg h2, if_pos (Or.inl h1)]
  · rw [if_neg h1]
    by_cases h2 : g = c.fromNode
    · rw [if_pos h2, if_pos (Or.inr h2)]
    · rw [if_neg h2, if_neg (by simp [h1, h2])]

theorem assocLookup_foldl_removeConn_nil (cs : List ConnRec) (t : SceneState) (g : ℕ)
    (h : assocLookup t.connLists g = some []) :
    assocLookup ((cs.foldl removeConnectionFromScene t).connLists) g = some [] := by
  induction cs generalizing t with
  | nil => exact h
  | cons c rest ih =>
    rw [List.foldl_cons]
    apply ih
    rw [assocLookup_removeConn_connLists]
    by_cases hc : g = c.toNode ∨ g = c.fromNode
    · rw [if_pos hc, h]
      rfl
    · rw [if_neg hc]
      exact h

theorem assocLookup_restoreConn_connLists (t : SceneState) (c : ConnRec) (g : ℕ) :
    assocLookup (restoreConnectionToScene t c).connLists g =
      (assocLookup t.connLists g).map
        (· ++ ((if c.fromNode = g then [c.cid] else []) ++
          if c.toNode = g then [c.cid] else [])) := by
  show assocLookup (regConn (regConn t.connLists c.fromNode c.cid) c.toNode c.cid) g = _
  rw [assocLookup_regConn, assocLookup_regConn]
  by_cases h1 : g = c.toNode
  · by_cases h2 : g = c.fromNode
    · rw [if_pos h1, if_pos h2, if_pos h2.symm, if_pos h1.symm, Option.map_map]
      cases assocLookup t.connLists g with
      | none => rfl
      | some l =>
        show some ((l ++ [c.cid]) ++ [c.cid]) = some (l ++ ([c.cid] ++ [c.cid]))
        rw [List.append_assoc]
    · rw [if_pos h1, if_neg h2, if_neg (fun hc => h2 hc.symm), if_pos h1.symm]
      cases assocLookup t.connLists g with
      | none => rfl
      | some l => simp
  · by_cases h2 : g = c.fromNode
    · rw [if_neg h1, if_pos h2, if_pos h2.symm, if_neg (fun hc => h1 hc.symm)]
      cases assocLookup t.connLists g with
      | none => rfl
      | some l => simp
    · rw [if_neg h1, if_neg h2, if_neg (fun hc => h2 hc.symm), if_neg (fun hc => h1 hc.symm)]
      cases assocLookup t.connLists g with
      | none => rfl
      | some l => simp

theorem assocLookup_foldl_restoreConn (cs : List ConnRec) (t : SceneState) (g : ℕ) :
    assocLookup ((cs.foldl restoreConnectionToScene t).connLists) g =
      (assocLookup t.connLists g).map
        (· ++ cs.flatMap fun c =>
          (if c.fromNode = g then [c.cid] else []) ++ if c.toNode = g then [c.cid] else []) := by
  induction cs generalizing t with
  | nil =>
    rw [List.foldl_nil, List.flatMap_nil]
    cases assocLookup t.connLists g with
    | none => rfl
    | some l => simp
  | cons c rest ih =>
    rw [List.foldl_cons, ih, assocLookup_restoreConn_connLists]
    cases assocLookup t.connLists g with
    | none => rfl
    | some l => simp [List.flatMap_cons, List.append_assoc]

theorem originalCenterOf_captured (s : SceneState) (S : List ℕ) :
    originalCenterOf (capturedOriginalPositions s S) = groupCenter s S := by
  unfold originalCenterOf groupCenter capturedOriginalPositions
  rw [List.foldl_map, List.length_map]

theorem assocLookup_nil {α : Type} (k : ℕ) : assocLookup ([] : List (ℕ × α)) k = none := rfl

theorem assocLookup_mem_keys {α : Type} (l : List (ℕ × α)) (k : ℕ)
    (h : k ∈ l.map Prod.fst) : ∃ v, assocLookup l k = some v := by
  induction l with
  | nil => cases h
  | cons p rest ih =>
    rw [assocLookup_cons]
    by_cases hp : p.1 = k
    · exact ⟨p.2, by rw [if_pos hp]⟩
    · rw [if_neg hp]
      rw [List.map_cons, List.mem_cons] at h
      rcases h with h | h
      · exact absurd h.symm hp
      · exact ih h

theorem flatMap_singleton_eq_map {α β : Type} (f : α → List β) (g : α → β) (l : List α)
    (h : ∀ c ∈ l, f c = [g c]) : l.flatMap f = l.map g := by
  induction l with
  | nil => rfl
  | cons c rest ih =>
    rw [List.flatMap_cons, List.map_cons, h c (List.mem_cons_self c rest),
      ih fun d hd => h d (List.mem_cons_of_mem c hd)]
    rfl

theorem snd_mem_of_mem_enum {α : Type} (l : List α) (p : ℕ × α) (hp : p ∈ l.enum) :
    p.2 ∈ l := by
  have general : ∀ (m : List α) (n : ℕ) (q : ℕ × α), q ∈ m.enumFrom n → q.2 ∈ m := by
    intro m
    induction m with
    | nil => intro n q hq; cases hq
    | cons a rest ih =>
      intro n q hq
      have hq2 : q ∈ (n, a) :: rest.enumFrom (n + 1) := hq
      rcases List.mem_cons.mp hq2 with rfl | hq3
      · exact List.mem_cons_self a rest
      · exact List.mem_cons_of_mem a (ih (n + 1) q hq3)
  exact general l 0 p hp

theorem externalConnectionsOf_spec (s : SceneState) (conns : List ConnRec) (S : List ℕ) :
    ∀ e ∈ externalConnectionsOf s conns S,
      e.originalConnection ∈ conns ∧
      (e.originalConnection.fromNode ∈ S ∨ e.originalConnection.toNode ∈ S) ∧
      ¬(e.originalConnection.fromNode ∈ S ∧ e.originalConnection.toNode ∈ S) ∧
      (e.externalNode = e.originalConnection.fromNode ∨
        e.externalNode = e.originalConnection.toNode) := by
  intro e he
  unfold externalConnectionsOf at he
  rw [List.mem_filterMap] at he
  obtain ⟨c, hc, hce⟩ := he
  by_cases h1 : c.fromNode ∈ S ∧ c.toNode ∈ S
  · rw [if_pos h1] at hce; cases hce
  · rw [if_neg h1] at hce
    by_cases h2 : c.fromNode ∈ S
    · rw [if_pos h2] at hce
      injection hce with h
      subst h
      exact ⟨hc, Or.inl h2, h1, Or.inr rfl⟩
    · rw [if_neg h2] at hce
      by_cases h3 : c.toNode ∈ S
      · rw [if_pos h3] at hce
        injection hce with h
        subst h
        exact ⟨hc, Or.inr h3, h1, Or.inl rfl⟩
      · rw [if_neg h3] at hce; cases hce

theorem mem_externalConnectionsOf_orig (s : SceneState) (conns : List ConnRec) (S : List ℕ)
    (c : ConnRec) (hc : c ∈ conns) (hnb : ¬(c.fromNode ∈ S ∧ c.toNode ∈ S))
    (hone : c.fromNode ∈ S ∨ c.toNode ∈ S) :
    c ∈ (externalConnectionsOf s conns S).map (fun e => e.originalConnection) := by
  rw [List.mem_map]
  by_cases h2 : c.fromNode ∈ S
  · refine ⟨⟨c.toNode, c.toPort, gnodeView s c.fromNode, c.fromPort, false, c⟩, ?_, rfl⟩
    unfold externalConnectionsOf
    rw [List.mem_filterMap]
    exact ⟨c, hc, by rw [if_neg hnb, if_pos h2]⟩
  · have h3 : c.toNode ∈ S := hone.resolve_left h2
    refine ⟨⟨c.fromNode, c.fromPort, gnodeView s c.toNode, c.toPort, true, c⟩, ?_, rfl⟩
    unfold externalConnectionsOf
    rw [List.mem_filterMap]
    exact ⟨c, hc, by rw [if_neg hnb, if_neg h2, if_pos h3]⟩

theorem groupNewConns_marker (s : SceneState) (S : List ℕ) (I : List ConnRec)
    (E : List ExternalConnection) (gid b : ℕ)
    (hext : ∀ e ∈ E, e.externalNode ≠ gid) :
    ∀ c ∈ groupNewConns s S I E gid b,
      ((if c.fromNode = gid then [c.cid] else []) ++
        if c.toNode = gid then [c.cid] else []) = [c.cid] := by
  intro c hc
  unfold groupNewConns newGroupConns at hc
  rw [List.mem_map] at hc
  obtain ⟨p, hp, hpc⟩ := hc
  have hne := hext p.2 (snd_mem_of_mem_enum E p hp)
  subst hpc
  unfold mkGroupConn
  by_cases hin : p.2.isInput = true
  · rw [if_pos hin]
    simp [hne]
  · rw [if_neg hin]
    simp [hne]

theorem filter_cid_lt_not_mem (l : List ConnRec) (nc : List ConnRec) (b : ℕ)
    (hlt : ∀ c ∈ l, c.cid < b) (hge : ∀ c ∈ nc, b ≤ c.cid) :
    l.filter (fun d => d.cid ∉ nc.map ConnRec.cid) = l := by
  apply List.filter_eq_self.mpr
  intro a ha
  simp only [decide_eq_true_eq]
  intro hmem
  rw [List.mem_map] at hmem
  obtain ⟨d, hd, hdc⟩ := hmem
  have h1 := hge d hd
  have h2 := hlt a ha
  omega

theorem groupRedo1_connLists_gid (s : SceneState) (S : List ℕ) (I : List ConnRec)
    (E : List ExternalConnection) (gid b : ℕ)
    (hgidconn : gid ∉ s.connLists.map Prod.fst)
    (hmark : ∀ c ∈ groupNewConns s S I E gid b,
      ((if c.fromNode = gid then [c.cid] else []) ++
        if c.toNode = gid then [c.cid] else []) = [c.cid]) :
    assocLookup (groupRedo1 s S I E gid b).connLists gid =
      some ((groupNewConns s S I E gid b).map ConnRec.cid) := by
  simp only [groupRedo1]
  rw [assocLookup_foldl_restoreConn, restoreNodeToScene_connLists, foldl_removeNode_connLists]
  have h1 : assocLookup (SceneState.mk (s.heap ++ [(gid, groupObjOf s S I E)])
      (s.connLists ++ [(gid, [])]) s.sceneNodes s.sceneConns).connLists gid = some [] := by
    show assocLookup (s.connLists ++ [(gid, [])]) gid = some []
    rw [assocLookup_append, assocLookup_eq_none s.connLists gid hgidconn]
    simp [assocLookup_cons]
  have h2 := assocLookup_foldl_removeConn_nil (E.map (·.originalConnection)) _ gid h1
  have h3 := assocLookup_foldl_removeConn_nil I _ gid h2
  rw [h3, flatMap_singleton_eq_map _ ConnRec.cid _ hmark]
  simp

theorem groupedScene_connLists (s : SceneState) (S : List ℕ) (gid b : ℕ) (gp : Point) :
    (groupedScene s S gid b gp).connLists =
      (groupRedo1 s S (internalConnectionsOf s.sceneConns S)
        (externalConnectionsOf s s.sceneConns S) gid b).connLists := rfl

theorem groupedScene_heap (s : SceneState) (S : List ℕ) (gid b : ℕ) (gp : Point) :
    (groupedScene s S gid b gp).heap =
      heapSetPos (s.heap ++ [(gid, groupObjOf s S (internalConnectionsOf s.sceneConns S)
        (externalConnectionsOf s s.sceneConns S))]) gid gp := by
  unfold groupedScene
  rw [scenePos_heap, groupRedo1_heap]

theorem groupedScene_posOf_gid (s : SceneState) (S : List ℕ) (gid b : ℕ) (gp : Point)
    (hgidheap : gid ∉ s.heap.map Prod.fst) :
    posOf (groupedScene s S gid b gp) gid = gp := by
  unfold posOf
  rw [groupedScene_heap, assocLookup_heapSetPos, if_pos rfl, assocLookup_append,
    assocLookup_eq_none s.heap gid hgidheap]
  simp [assocLookup_cons]

theorem groupUngroup_heap (s : SceneState) (S : List ℕ) (gid b : ℕ) (gp : Point)
    (hgidheap : gid ∉ s.heap.map Prod.fst) :
    (groupUngroup s S gid b gp).heap =
      multiSetPos S
        (fun n => (assocLookup (capturedOriginalPositions s S) n).getD 0 +
          (gp - groupCenter s S))
        (groupedScene s S gid b gp).heap := by
  unfold groupUngroup
  rw [ungroupRedo_heap, groupedScene_posOf_gid s S gid b gp hgidheap,
    originalCenterOf_captured]

theorem groupUngroup_heap_lookup_mem (s : SceneState) (S : List ℕ) (gid b : ℕ) (gp : Point)
    (hgidheap : gid ∉ s.heap.map Prod.fst) (hgidS : gid ∉ S) (n : ℕ) (hn : n ∈ S) :
    assocLookup (groupUngroup s S gid b gp).heap n =
      (assocLookup s.heap n).map
        (fun o => { o with pos := posOf s n + (gp - groupCenter s S) }) := by
  rw [groupUngroup_heap s S gid b gp hgidheap, assocLookup_multiSetPos, if_pos hn,
    groupedScene_heap, assocLookup_heapSetPos,
    if_neg (show ¬ n = gid from fun hc => hgidS (hc ▸ hn)),
    assocLookup_append, assocLookup_capturedOriginalPositions s S n hn]
  cases h : assocLookup s.heap n with
  | none =>
    simp [assocLookup_cons, assocLookup_nil, show ¬ gid = n from fun hc => hgidS (hc ▸ hn)]
  | some o => simp

theorem groupUngroup_heap_lookup_notMem (s : SceneState) (S : List ℕ) (gid b : ℕ)
    (gp : Point) (hgidheap : gid ∉ s.heap.map Prod.fst) (n : ℕ) (hnS : n ∉ S)
    (hng : n ≠ gid) :
    assocLookup (groupUngroup s S gid b gp).heap n = assocLookup s.heap n := by
  rw [groupUngroup_heap s S gid b gp hgidheap, assocLookup_multiSetPos, if_neg hnS,
    groupedScene_heap, assocLookup_heapSetPos, if_neg hng, assocLookup_append]
  cases h : assocLookup s.heap n with
  | none => simp [assocLookup_cons, assocLookup_nil, Ne.symm hng]
  | some o => rfl

theorem groupUngroup_posOf_mem (s : SceneState) (S : List ℕ) (gid b : ℕ) (gp : Point)
    (hgidheap : gid ∉ s.heap.map Prod.fst) (hgidS : gid ∉ S) (n : ℕ) (hn : n ∈ S)
    (hnheap : n ∈ s.heap.map Prod.fst) :
    posOf (groupUngroup s S gid b gp) n = posOf s n + (gp - groupCenter s S) := by
  obtain ⟨o, ho⟩ := assocLookup_mem_keys s.heap n hnheap
  have hl := groupUngroup_heap_lookup_mem s S gid b gp hgidheap hgidS n hn
  have hp : posOf s n = o.pos := by unfold posOf; rw [ho]; rfl
  show (assocLookup (groupUngroup s S gid b gp).heap n).elim 0 (·.pos) =
    posOf s n + (gp - groupCenter s S)
  rw [hl, ho, hp]
  rfl

theorem groupUngroup_posOf_notMem (s : SceneState) (S : List ℕ) (gid b : ℕ) (gp : Point)
    (hgidheap : gid ∉ s.heap.map Prod.fst) (n : ℕ) (hnS : n ∉ S) (hng : n ≠ gid) :
    posOf (groupUngroup s S gid b gp) n = posOf s n := by
  show (assocLookup (groupUngroup s S gid b gp).heap n).elim 0 (·.pos) =
    (assocLookup s.heap n).elim 0 (·.pos)
  rw [groupUngroup_heap_lookup_notMem s S gid b gp hgidheap n hnS hng]

theorem groupUngroup_sceneNodes (s : SceneState) (S : List ℕ) (gid b : ℕ) (gp : Point)
    (hgidscene : gid ∉ s.sceneNodes) :
    (groupUngroup s S gid b gp).sceneNodes = s.sceneNodes.filter (· ∉ S) ++ S := by
  unfold groupUngroup groupedScene
  rw [ungroupRedo_sceneNodes, scenePos_sceneNodes, groupRedo1_sceneNodes,
    List.filter_append]
  congr 1
  rw [show (([gid] : List ℕ).filter (· ≠ gid)) = [] from by simp, List.append_nil]
  apply List.filter_eq_self.mpr
  intro a ha
  have hal : a ∈ s.sceneNodes := (List.mem_filter.mp ha).1
  simp only [ne_eq, decide_eq_true_eq]
  exact fun hc => hgidscene (hc ▸ hal)

theorem groupUngroup_sceneConns (s : SceneState) (S : List ℕ) (gid b : ℕ) (gp : Point)
    (hcidlt : ∀ c ∈ s.sceneConns, c.cid < b) :
    (groupUngroup s S gid b gp).sceneConns =
      ((s.sceneConns.filter fun d =>
          d.cid ∉ ((externalConnectionsOf s s.sceneConns S).map
            (fun e => e.originalConnection)).map ConnRec.cid).filter
        (fun d => d.cid ∉ (internalConnectionsOf s.sceneConns S).map ConnRec.cid)) ++
      internalConnectionsOf s.sceneConns S ++
      (externalConnectionsOf s s.sceneConns S).map (fun e => e.originalConnection) := by
  unfold groupUngroup groupedScene
  rw [ungroupRedo_sceneConns, scenePos_sceneConns, groupRedo1_sceneConns,
    List.filter_append, filter_self_map_empty ConnRec.cid, List.append_nil,
    filter_cid_lt_not_mem _ _ b
      (fun c hc => hcidlt c (List.mem_of_mem_filter (List.mem_of_mem_filter hc)))
      (groupNewConns_cid_ge s S (internalConnectionsOf s.sceneConns S)
        (externalConnectionsOf s s.sceneConns S) gid b)]

/-- C1: Grouping a node set `S` (at least two members, arbitrary surrounding
graph) and then ungrouping the resulting group restores the scene to its
pre-group state: the group's captured connection list is exactly the
group-port connections, every original node is back (and only those), each
member node is the same object relocated to
`originalPosition + (group.currentPosition - centroid(originalPositions))`,
every other node object is untouched, the scene connections are exactly the
original ones (internal and external connections restored as the same
records), and the group node and its group-port connections are gone. -/
theorem C1_group_ungroup_roundtrip (s : SceneState) (S : List ℕ) (gid b : ℕ) (gp : Point)
    (_hS2 : 2 ≤ S.length)
    (hSsub : ∀ n ∈ S, n ∈ s.sceneNodes)
    (hgidscene : gid ∉ s.sceneNodes)
    (hgidheap : gid ∉ s.heap.map Prod.fst)
    (hgidconn : gid ∉ s.connLists.map Prod.fst)
    (hSheap : ∀ n ∈ S, n ∈ s.heap.map Prod.fst)
    (hend : ∀ c ∈ s.sceneConns, c.fromNode ≠ gid ∧ c.toNode ≠ gid)
    (hcidlt : ∀ c ∈ s.sceneConns, c.cid < b)
    (hcidnd : (s.sceneConns.map ConnRec.cid).Nodup) :
    assocLookup (groupedScene s S gid b gp).connLists gid =
      some ((groupNewConns s S (internalConnectionsOf s.sceneConns S)
        (externalConnectionsOf s s.sceneConns S) gid b).map ConnRec.cid) ∧
    (∀ n, n ∈ (groupUngroup s S gid b gp).sceneNodes ↔ n ∈ s.sceneNodes) ∧
    gid ∉ (groupUngroup s S gid b gp).sceneNodes ∧
    (∀ n ∈ S, assocLookup (groupUngroup s S gid b gp).heap n =
      (assocLookup s.heap n).map
        (fun o => { o with pos := posOf s n + (gp - groupCenter s S) })) ∧
    (∀ n ∈ S, posOf (groupUngroup s S gid b gp) n =
      posOf s n + (gp - groupCenter s S)) ∧
    (∀ n, n ∉ S → n ≠ gid →
      assocLookup (groupUngroup s S gid b gp).heap n = assocLookup s.heap n) ∧
    (∀ c, c ∈ (groupUngroup s S gid b gp).sceneConns ↔ c ∈ s.sceneConns) ∧
    (∀ c ∈ groupNewConns s S (internalConnectionsOf s.sceneConns S)
        (externalConnectionsOf s s.sceneConns S) gid b,
      c ∉ (groupUngroup s S gid b gp).sceneConns) := by
  have hgidS : gid ∉ S := fun hg => hgidscene (hSsub gid hg)
  have hext : ∀ e ∈ externalConnectionsOf s s.sceneConns S, e.externalNode ≠ gid := by
    intro e he
    obtain ⟨horig, _, _, hw⟩ := externalConnectionsOf_spec s s.sceneConns S e he
    rcases hw with hw | hw
    · rw [hw]; exact (hend _ horig).1
    · rw [hw]; exact (hend _ horig).2
  have hmark := groupNewConns_marker s S (internalConnectionsOf s.sceneConns S)
    (externalConnectionsOf s s.sceneConns S) gid b hext
  have hnodes := groupUngroup_sceneNodes s S gid b gp hgidscene
  have hconns := groupUngroup_sceneConns s S gid b gp hcidlt
  have hinj := List.inj_on_of_nodup_map hcidnd
  have hiff : ∀ c, c ∈ (groupUngroup s S gid b gp).sceneConns ↔ c ∈ s.sceneConns := by
    intro c
    rw [hconns, List.mem_append, List.mem_append]
    constructor
    · rintro ((hA | hI) | hE)
      · exact List.mem_of_mem_filter (List.mem_of_mem_filter hA)
      · exact List.mem_of_mem_filter hI
      · rw [List.mem_map] at hE
        obtain ⟨e, he, hec⟩ := hE
        rw [← hec]
        exact (externalConnectionsOf_spec s s.sceneConns S e he).1
    · intro hc
      by_cases hb2 : c.fromNode ∈ S ∧ c.toNode ∈ S
      · exact Or.inl (Or.inr (List.mem_filter.mpr ⟨hc, by simp [hb2.1, hb2.2]⟩))
      · by_cases hone : c.fromNode ∈ S ∨ c.toNode ∈ S
        · exact Or.inr (mem_externalConnectionsOf_orig s s.sceneConns S c hc hb2 hone)
        · push_neg at hone
          refine Or.inl (Or.inl (List.mem_filter.mpr ⟨List.mem_filter.mpr ⟨hc, ?_⟩, ?_⟩))
          · simp only [decide_eq_true_eq]
            intro hmem
            rw [List.mem_map] at hmem
            obtain ⟨d, hd, hdc⟩ := hmem
            rw [List.mem_map] at hd
            obtain ⟨e, he, hed⟩ := hd
            obtain ⟨horig, honeE, _, _⟩ := externalConnectionsOf_spec s s.sceneConns S e he
            have hec : ConnRec.cid e.originalConnection = ConnRec.cid c := by
              rw [hed]; exact hdc
            have heq := hinj horig hc hec
            rw [heq] at honeE
            rcases honeE with h | h
            · exact hone.1 h
            · exact hone.2 h
          · simp only [decide_eq_true_eq]
            intro hmem
            rw [List.mem_map] at hmem
            obtain ⟨d, hd, hdc⟩ := hmem
            have hdconns : d ∈ s.sceneConns := List.mem_of_mem_filter hd
            have heq := hinj hdconns hc hdc
            rw [heq] at hd
            have hpred := (List.mem_filter.mp hd).2
            simp only [decide_eq_true_eq] at hpred
            exact hb2 hpred
  refine ⟨?_, ?_, ?_, ?_, ?_, ?_, hiff, ?_⟩
  · rw [groupedScene_connLists]
    exact groupRedo1_connLists_gid s S (internalConnectionsOf s.sceneConns S)
      (externalConnectionsOf s s.sceneConns S) gid b hgidconn hmark
  · intro n
    rw [hnodes, List.mem_append, List.mem_filter]
    constructor
    · rintro (⟨h, _⟩ | h)
      · exact h
      · exact hSsub n h
    · intro h
      by_cases hS : n ∈ S
      · exact Or.inr hS
      · exact Or.inl ⟨h, by simp [hS]⟩
  · rw [hnodes]
    simp [List.mem_append, List.mem_filter, hgidscene, hgidS]
  · intro n hn
    exact groupUngroup_heap_lookup_mem s S gid b gp hgidheap hgidS n hn
  · intro n hn
    exact groupUngroup_posOf_mem s S gid b gp hgidheap hgidS n hn (hSheap n hn)
  · intro n hnS hng
    exact groupUngroup_heap_lookup_notMem s S gid b gp hgidheap n hnS hng
  · intro c hcnc hcmem
    have hge := groupNewConns_cid_ge s S (internalConnectionsOf s.sceneConns S)
      (externalConnectionsOf s s.sceneConns S) gid b c hcnc
    have hlt := hcidlt c ((hiff c).mp hcmem)
    omega

theorem C1_group_ungroup_roundtrip_witness :
    ((2 ≤ ([0, 1] : List ℕ).length) ∧
      (∀ n ∈ ([0, 1] : List ℕ), n ∈ sTwoNodes.sceneNodes) ∧
      (5 ∉ sTwoNodes.sceneNodes) ∧
      (5 ∉ sTwoNodes.heap.map Prod.fst) ∧
      (5 ∉ sTwoNodes.connLists.map Prod.fst) ∧
      (∀ n ∈ ([0, 1] : List ℕ), n ∈ sTwoNodes.heap.map Prod.fst) ∧
      (∀ c ∈ sTwoNodes.sceneConns, c.fromNode ≠ 5 ∧ c.toNode ≠ 5) ∧
      (∀ c ∈ sTwoNodes.sceneConns, c.cid < 100) ∧
      (sTwoNodes.sceneConns.map ConnRec.cid).Nodup) ∧
    (assocLookup (groupedScene sTwoNodes [0, 1] 5 100 ⟨3, 4⟩).connLists 5 =
      some ((groupNewConns sTwoNodes [0, 1]
        (internalConnectionsOf sTwoNodes.sceneConns [0, 1])
        (externalConnectionsOf sTwoNodes sTwoNodes.sceneConns [0, 1]) 5 100).map
          ConnRec.cid) ∧
     (∀ n, n ∈ (groupUngroup sTwoNodes [0, 1] 5 100 ⟨3, 4⟩).sceneNodes ↔
        n ∈ sTwoNodes.sceneNodes) ∧
     5 ∉ (groupUngroup sTwoNodes [0, 1] 5 100 ⟨3, 4⟩).sceneNodes ∧
     (∀ n ∈ ([0, 1] : List ℕ),
        assocLookup (groupUngroup sTwoNodes [0, 1] 5 100 ⟨3, 4⟩).heap n =
          (assocLookup sTwoNodes.heap n).map
            (fun o => { o with
              pos := posOf sTwoNodes n + (⟨3, 4⟩ - groupCenter sTwoNodes [0, 1]) })) ∧
     (∀ n ∈ ([0, 1] : List ℕ),
        posOf (groupUngroup sTwoNodes [0, 1] 5 100 ⟨3, 4⟩) n =
          posOf sTwoNodes n + (⟨3, 4⟩ - groupCenter sTwoNodes [0, 1])) ∧
     (∀ n, n ∉ ([0, 1] : List ℕ) → n ≠ 5 →
        assocLookup (groupUngroup sTwoNodes [0, 1] 5 100 ⟨3, 4⟩).heap n =
          assocLookup sTwoNodes.heap n) ∧
     (∀ c, c ∈ (groupUngroup sTwoNodes [0, 1] 5 100 ⟨3, 4⟩).sceneConns ↔
        c ∈ sTwoNodes.sceneConns) ∧
     (∀ c ∈ groupNewConns sTwoNodes [0, 1]
          (internalConnectionsOf sTwoNodes.sceneConns [0, 1])
          (externalConnectionsOf sTwoNodes sTwoNodes.sceneConns [0, 1]) 5 100,
        c ∉ (groupUngroup sTwoNodes [0, 1] 5 100 ⟨3, 4⟩).sceneConns)) :=
  ⟨⟨by decide, by decide, by decide, by decide, by decide, by decide, by decide, by decide,
      by decide⟩,
    C1_group_ungroup_roundtrip sTwoNodes [0, 1] 5 100 ⟨3, 4⟩ (by decide) (by decide)
      (by decide) (by decide) (by decide) (by decide) (by decide) (by decide) (by decide)⟩

theorem getLastD_cons (rest : List Point) : ∀ (p x : Point),
    ((p :: rest).getLast?.getD x) = rest.getLast?.getD p := by
  induction rest with
  | nil => intro p x; rfl
  | cons a l ih =>
    intro p x
    rw [List.getLast?_cons_cons, ih a x, ih a p]

theorem stackPush_merge_same (nid : ℕ) (q r p : Point) (st : List UCommand) :
    stackPush (UCommand.move nid q r :: st) (UCommand.move nid r p) =
      UCommand.move nid q p :: st := by
  simp [stackPush, mergeWith, moveMergeWith, cmdId]

theorem stackPushAll_moves (nid : ℕ) (q r : Point) (ps : List Point) (st : List UCommand) :
    stackPushAll (UCommand.move nid q r :: st) (pathCmds nid r ps) =
      UCommand.move nid q (ps.getLast?.getD r) :: st := by
  induction ps generalizing q r with
  | nil => rfl
  | cons p rest ih =>
    show stackPushAll (stackPush (UCommand.move nid q r :: st) (UCommand.move nid r p))
      (pathCmds nid p rest) = _
    rw [stackPush_merge_same, ih, getLastD_cons]

theorem stackPush_fresh (st : List UCommand) (nid : ℕ) (q r : Point)
    (htop : topIsMoveOf st nid = false) :
    stackPush st (UCommand.move nid q r) = UCommand.move nid q r :: st := by
  cases st with
  | nil => rfl
  | cons top rest =>
    cases top with
    | move m a c =>
      have hm : ¬ m = nid := by
        intro hc
        rw [topIsMoveOf, hc] at htop
        simp at htop
      simp [stackPush, mergeWith, moveMergeWith, cmdId, Ne.symm hm]
    | other t =>
      simp [stackPush, cmdId]

theorem posOf_scenePos_self (s : SceneState) (nid : ℕ) (p : Point)
    (h : nid ∈ s.heap.map Prod.fst) : posOf (scenePos s nid p) nid = p := by
  obtain ⟨o, ho⟩ := assocLookup_mem_keys s.heap nid h
  show (assocLookup (heapSetPos s.heap nid p) nid).elim 0 (·.pos) = p
  rw [assocLookup_heapSetPos, if_pos rfl, ho]
  rfl

/-- C6: Pushing N ≥ 1 consecutive move commands for one node (a drag through
the positions `ps` starting from `p₀`), onto a stack whose top is not already
a move of that node, grows the stack by exactly one entry, the single
`MoveNodeCommand` from `p₀` to the final position; undoing that entry puts
the node back at `p₀`.  A move of a different node, or a command with the
default id, is appended without merging. -/
theorem C6_move_command_merging (nid : ℕ) (p₀ : Point) (ps : List Point)
    (st : List UCommand) (hN : 1 ≤ ps.length)
    (htop : topIsMoveOf st nid = false) :
    stackPushAll st (pathCmds nid p₀ ps) =
      UCommand.move nid p₀ (ps.getLast?.getD p₀) :: st ∧
    (stackPushAll st (pathCmds nid p₀ ps)).length = st.length + 1 ∧
    (∀ s : SceneState, nid ∈ s.heap.map Prod.fst →
      ∀ c, (stackPushAll st (pathCmds nid p₀ ps)).head? = some c →
        posOf (applyUndo s c) nid = p₀) ∧
    (∀ m (q2 r2 q r : Point) (st2 : List UCommand), m ≠ nid →
      stackPush (UCommand.move nid q r :: st2) (UCommand.move m q2 r2) =
        UCommand.move m q2 r2 :: UCommand.move nid q r :: st2) ∧
    (∀ (t : ℕ) (c : UCommand) (st2 : List UCommand),
      stackPush (c :: st2) (UCommand.other t) = UCommand.other t :: c :: st2) := by
  cases ps with
  | nil => cases hN
  | cons p rest =>
    have hmain : stackPushAll st (pathCmds nid p₀ (p :: rest)) =
        UCommand.move nid p₀ ((p :: rest).getLast?.getD p₀) :: st := by
      show stackPushAll (stackPush st (UCommand.move nid p₀ p)) (pathCmds nid p rest) = _
      rw [stackPush_fresh st nid p₀ p htop, stackPushAll_moves, getLastD_cons]
    refine ⟨hmain, ?_, ?_, ?_, ?_⟩
    · rw [hmain]; rfl
    · intro s hmem c hc
      rw [hmain] at hc
      rw [List.head?_cons, Option.some_inj] at hc
      rw [← hc]
      exact posOf_scenePos_self s nid p₀ hmem
    · intro m q2 r2 q r st2 hm
      simp [stackPush, mergeWith, moveMergeWith, cmdId, hm]
    · intro t c st2
      cases c with
      | move m a d => simp [stackPush, cmdId]
      | other u => simp [stackPush, cmdId]

theorem C6_move_command_merging_witness :
    ((1 ≤ ([⟨1, 1⟩, ⟨2, 2⟩, ⟨3, 3⟩] : List Point).length) ∧
      topIsMoveOf [] 0 = false) ∧
    (stackPushAll [] (pathCmds 0 ⟨0, 0⟩ [⟨1, 1⟩, ⟨2, 2⟩, ⟨3, 3⟩]) =
      UCommand.move 0 ⟨0, 0⟩
        (([⟨1, 1⟩, ⟨2, 2⟩, ⟨3, 3⟩] : List Point).getLast?.getD ⟨0, 0⟩) :: [] ∧
    (stackPushAll [] (pathCmds 0 ⟨0, 0⟩ [⟨1, 1⟩, ⟨2, 2⟩, ⟨3, 3⟩])).length =
      ([] : List UCommand).length + 1 ∧
    (∀ s : SceneState, 0 ∈ s.heap.map Prod.fst →
      ∀ c, (stackPushAll [] (pathCmds 0 ⟨0, 0⟩ [⟨1, 1⟩, ⟨2, 2⟩, ⟨3, 3⟩])).head? = some c →
        posOf (applyUndo s c) 0 = ⟨0, 0⟩) ∧
    (∀ m (q2 r2 q r : Point) (st2 : List UCommand), m ≠ 0 →
      stackPush (UCommand.move 0 q r :: st2) (UCommand.move m q2 r2) =
        UCommand.move m q2 r2 :: UCommand.move 0 q r :: st2) ∧
    (∀ (t : ℕ) (c : UCommand) (st2 : List UCommand),
      stackPush (c :: st2) (UCommand.other t) = UCommand.other t :: c :: st2)) :=
  ⟨⟨by decide, by decide⟩,
    C6_move_command_merging 0 ⟨0, 0⟩ [⟨1, 1⟩, ⟨2, 2⟩, ⟨3, 3⟩] [] (by decide) (by decide)⟩

/-- C3: the save/load round trip destroys group nesting — on a graph whose
top-level group G contains a nested group H and an internal connection, the
reloaded scene still has one group named G, but H has been flattened to a
plain node (Node::toJson is not virtual, so getFlowData serializes internal
nodes without their group payload and the loader rebuilds them with
Node::fromJson), every internal connection is gone (Connection::toJson
writes pointer strings under fromNode/toNode and ports under
fromPortIndex/toPortIndex, while the loader resolves names and reads
fromPort/toPort), and the group level is reset to the constructor default
1. -/
theorem C3_nested_group_roundtrip_fails :
    ((loadFlowData gSceneNested (getFlowData gSceneNested)).nodes.length = 1 ∧
      (loadFlowData gSceneNested (getFlowData gSceneNested)).nodes.map rnodeIsGroup =
        [true] ∧
      (loadFlowData gSceneNested (getFlowData gSceneNested)).nodes.map rnodeName =
        ["G"]) ∧
    ((rnodeInternals rnG).map rnodeIsGroup = [true, false] ∧
      rnodeIconns rnG = [⟨11, 14, 0, 0, 0⟩] ∧
      rnodeLevel rnG = 2) ∧
    ((loadFlowData gSceneNested (getFlowData gSceneNested)).nodes.map
        (fun n => (rnodeInternals n).map rnodeIsGroup) = [[false, false]] ∧
      (loadFlowData gSceneNested (getFlowData gSceneNested)).nodes.map rnodeIconns =
        [[]] ∧
      (loadFlowData gSceneNested (getFlowData gSceneNested)).nodes.map rnodeLevel =
        [1]) := by
  decide

/-- C4 counterexample: loading a malformed document over a non-empty scene
does not leave the scene untouched — it clears it — and success is still
reported. -/
theorem C4_counterexample :
    rScenePrev.nodes.length = 1 ∧
    (onLoadProject rScenePrev none).1.nodes.length = 0 ∧
    (onLoadProject rScenePrev none).2 = true := by
  decide

/-- C4 (amended): for every current graph and every malformed top-level
document (parse failure or non-object document), `onLoadProject` does NOT
reject the load: `doc.object()` degrades to the empty object,
`loadFlowData` unconditionally clears the scene and loads nothing, and the
success message is shown — the previous graph is lost, no failure result
exists. -/
theorem C4_malformed_load_clears (prev : RScene) (parsed : Option JVal)
    (hmal : ∀ l, parsed ≠ some (JVal.jobj l)) :
    (onLoadProject prev parsed).1.nodes = [] ∧
    (onLoadProject prev parsed).1.conns = [] ∧
    (onLoadProject prev parsed).2 = true := by
  have hobj : docObject parsed = JVal.jobj [] := by
    match parsed with
    | none => rfl
    | some (JVal.jstr s) => rfl
    | some (JVal.jnum q) => rfl
    | some (JVal.jint n) => rfl
    | some (JVal.jbool b) => rfl
    | some (JVal.jarr l) => rfl
    | some (JVal.jobj l) => exact absurd rfl (hmal l)
  show ((loadFlowData prev (docObject parsed)).nodes = [] ∧
    (loadFlowData prev (docObject parsed)).conns = [] ∧ true = true)
  rw [hobj]
  exact ⟨rfl, rfl, rfl⟩

theorem C4_malformed_load_clears_witness :
    (∀ l, (none : Option JVal) ≠ some (JVal.jobj l)) ∧
    ((onLoadProject rScenePrev none).1.nodes = [] ∧
      (onLoadProject rScenePrev none).1.conns = [] ∧
      (onLoadProject rScenePrev none).2 = true) :=
  ⟨(fun _ h => nomatch h),
    C4_malformed_load_clears rScenePrev none (fun _ h => nomatch h)⟩

end DAGFlow

